import Mathlib

/-!
Verification of the lexrpc core (src/lexrpc/base.py and
src/lexrpc/flask_server.py) against its natural-language specification.

The Python code is shallowly embedded: JSON-compatible Python values become
the inductive `PyVal`, Python dicts become insertion-ordered association
lists over string keys, fallible Python code becomes `Except PyErr`, and
each method of `lexrpc.base.Base` becomes a Lean function translated
statement by statement from the source.
-/

namespace LexRpc

/-! ## Decimal model of Python floats

Python `str(float)` prints a sign, an integer part, a dot and fractional
digits; `float(str)` parses that shape back.  We model a float value by the
decimal components that appear in its printed form: a sign, a natural
integer part and a list of fractional digits.  (Scientific notation and
inf/nan are outside the fragment exercised by the spec's claims.) -/

structure PyDec where
  neg : Bool
  ip : Nat
  frac : List (Fin 10)
  deriving DecidableEq, Repr

def digitToChar (d : Nat) : Char :=
  match d with
  | 0 => '0' | 1 => '1' | 2 => '2' | 3 => '3' | 4 => '4'
  | 5 => '5' | 6 => '6' | 7 => '7' | 8 => '8' | 9 => '9'
  | _ => '*'

def charToDigit (c : Char) : Option (Fin 10) :=
  if c = '0' then some 0 else if c = '1' then some 1
  else if c = '2' then some 2 else if c = '3' then some 3
  else if c = '4' then some 4 else if c = '5' then some 5
  else if c = '6' then some 6 else if c = '7' then some 7
  else if c = '8' then some 8 else if c = '9' then some 9
  else none

/-- Decimal digit characters of a natural number, most significant first. -/
def natToChars (n : Nat) : List Char :=
  if n = 0 then ['0'] else (Nat.digits 10 n).reverse.map digitToChar

/-- Parses a list of decimal digit characters into digits, failing on any
non-digit character. -/
def digitsOfChars : List Char → Option (List (Fin 10))
  | [] => some []
  | c :: cs =>
    match charToDigit c, digitsOfChars cs with
    | some d, some ds => some (d :: ds)
    | _, _ => Option.none

/-- Parses a big-endian list of decimal digit characters. -/
def charsToNat? (cs : List Char) : Option Nat :=
  match digitsOfChars cs with
  | some ds => some (Nat.ofDigits 10 ((ds.map Fin.val).reverse))
  | Option.none => Option.none

theorem charToDigit_digitToChar (d : Nat) (h : d < 10) :
    charToDigit (digitToChar d) = some ⟨d, h⟩ := by
  interval_cases d <;> rfl

theorem digitsOfChars_map (l : List Nat) (h : ∀ d ∈ l, d < 10) :
    ∃ ds, digitsOfChars (l.map digitToChar) = some ds ∧ ds.map Fin.val = l := by
  induction l with
  | nil => exact ⟨[], rfl, rfl⟩
  | cons a l ih =>
    obtain ⟨ds, hds, hv⟩ := ih (fun d hd => h d (List.mem_cons_of_mem _ hd))
    have ha : a < 10 := h a (List.mem_cons_self _ _)
    refine ⟨⟨a, ha⟩ :: ds, ?_, by simp [hv]⟩
    simp [digitsOfChars, charToDigit_digitToChar a ha, hds]

theorem charsToNat_natToChars (n : Nat) : charsToNat? (natToChars n) = some n := by
  by_cases h0 : n = 0
  · subst h0; rfl
  · unfold natToChars charsToNat?
    rw [if_neg h0]
    obtain ⟨ds, hds, hv⟩ := digitsOfChars_map (Nat.digits 10 n).reverse
      (fun d hd => Nat.digits_lt_base (by norm_num) (List.mem_reverse.mp hd))
    rw [hds]
    simp [hv, Nat.ofDigits_digits]

theorem natToChars_ne_nil (n : Nat) : natToChars n ≠ [] := by
  unfold natToChars
  by_cases h0 : n = 0
  · simp [h0]
  · rw [if_neg h0]
    simp only [ne_eq, List.map_eq_nil_iff, List.reverse_eq_nil_iff]
    exact Nat.digits_ne_nil_iff_ne_zero.mpr h0

theorem natToChars_digits (n : Nat) : ∀ c ∈ natToChars n, (charToDigit c).isSome := by
  intro c hc
  unfold natToChars at hc
  by_cases h0 : n = 0
  · rw [if_pos h0] at hc
    simp at hc
    subst hc; rfl
  · rw [if_neg h0] at hc
    obtain ⟨d, hd, rfl⟩ := List.mem_map.mp hc
    have : d < 10 := Nat.digits_lt_base (by norm_num) (List.mem_reverse.mp hd)
    rw [charToDigit_digitToChar d this]
    rfl

theorem natToChars_no_dot (n : Nat) : ∀ c ∈ natToChars n, c ≠ '.' := by
  intro c hc
  have := natToChars_digits n c hc
  intro h
  subst h
  simp [charToDigit] at this

theorem natToChars_no_minus (n : Nat) : ∀ c ∈ natToChars n, c ≠ '-' := by
  intro c hc
  have := natToChars_digits n c hc
  intro h
  subst h
  simp [charToDigit] at this

/-- Splits a character list at the first dot, if any. -/
def splitDot : List Char → List Char × Option (List Char)
  | [] => ([], Option.none)
  | c :: cs =>
    if c = '.' then ([], some cs)
    else
      let r := splitDot cs
      (c :: r.1, r.2)

theorem splitDot_append (a b : List Char) (ha : ∀ c ∈ a, c ≠ '.') :
    splitDot (a ++ '.' :: b) = (a, some b) := by
  induction a with
  | nil => simp [splitDot]
  | cons c cs ih =>
    have hc : c ≠ '.' := ha c (List.mem_cons_self _ _)
    have := ih (fun d hd => ha d (List.mem_cons_of_mem _ hd))
    simp [splitDot, hc, this]

theorem splitDot_no_dot (a : List Char) (ha : ∀ c ∈ a, c ≠ '.') :
    splitDot a = (a, Option.none) := by
  induction a with
  | nil => rfl
  | cons c cs ih =>
    have hc : c ≠ '.' := ha c (List.mem_cons_self _ _)
    have := ih (fun d hd => ha d (List.mem_cons_of_mem _ hd))
    simp [splitDot, hc, this]

/-- Printed form of a modelled float, mirroring Python `str` on floats:
sign, integer part, dot, fractional digits (`str(3.0)` is `"3.0"`). -/
def floatRender (d : PyDec) : String :=
  (if d.neg then "-" else "") ++ String.mk (natToChars d.ip) ++ "." ++
    String.mk (d.frac.map (fun f => digitToChar f.val))

/-- Strips a leading minus sign, reporting whether one was present. -/
def stripMinus (cs : List Char) : Bool × List Char :=
  match cs with
  | [] => (false, [])
  | c :: rest => if c = '-' then (true, rest) else (false, c :: rest)

/-- Shared tail of the float parser, after the sign has been stripped. -/
def parseFloatCore (neg : Bool) (cs : List Char) : Option PyDec :=
  match splitDot cs with
  | (ipcs, some fraccs) =>
    if ipcs = [] ∧ fraccs = [] then Option.none
    else
      match charsToNat? ipcs, digitsOfChars fraccs with
      | some ip, some fr => some ⟨neg, ip, fr⟩
      | _, _ => Option.none
  | (ipcs, Option.none) =>
    if ipcs = [] then Option.none
    else
      match charsToNat? ipcs with
      | some ip => some ⟨neg, ip, []⟩
      | Option.none => Option.none

/-- Model of Python `float()` on strings: an optional minus sign, decimal
digits, an optional dot and fractional digits (positional notation only). -/
def parseFloat (s : String) : Option PyDec :=
  let p := stripMinus s.toList
  parseFloatCore p.1 p.2

theorem digitsOfChars_fin (l : List (Fin 10)) :
    digitsOfChars (l.map (fun f : Fin 10 => digitToChar f.val)) = some l := by
  induction l with
  | nil => rfl
  | cons a l ih =>
    have ha : charToDigit (digitToChar a.val) = some a := by
      have := charToDigit_digitToChar a.val a.isLt
      simpa using this
    simp [digitsOfChars, ha, ih]

theorem stripMinus_noMinus (cs : List Char) (h : ∀ c ∈ cs, c ≠ '-') :
    stripMinus cs = (false, cs) := by
  cases cs with
  | nil => rfl
  | cons c rest =>
    have : c ≠ '-' := h c (List.mem_cons_self _ _)
    simp [stripMinus, this]

theorem parseFloatCore_render (neg : Bool) (ip : Nat) (frac : List (Fin 10)) :
    parseFloatCore neg (natToChars ip ++ '.' ::
      frac.map (fun f : Fin 10 => digitToChar f.val)) = some ⟨neg, ip, frac⟩ := by
  unfold parseFloatCore
  rw [splitDot_append (natToChars ip) _ (natToChars_no_dot ip)]
  have hne : ¬ (natToChars ip = [] ∧
      frac.map (fun f : Fin 10 => digitToChar f.val) = []) := by
    intro h
    exact natToChars_ne_nil ip h.1
  simp only [hne, if_false]
  rw [charsToNat_natToChars ip, digitsOfChars_fin frac]

theorem parseFloat_floatRender (d : PyDec) : parseFloat (floatRender d) = some d := by
  obtain ⟨neg, ip, frac⟩ := d
  have hlist : (floatRender ⟨neg, ip, frac⟩).toList =
      (if neg then ['-'] else []) ++ (natToChars ip ++ '.' ::
        frac.map (fun f : Fin 10 => digitToChar f.val)) := by
    cases neg <;> simp [floatRender, String.toList, String.mk]
  unfold parseFloat
  cases neg with
  | false =>
    have hlist2 : (floatRender ⟨false, ip, frac⟩).toList =
        natToChars ip ++ '.' ::
          frac.map (fun f : Fin 10 => digitToChar f.val) := by
      simpa using hlist
    rw [hlist2]
    have hstrip : stripMinus (natToChars ip ++ '.' ::
        frac.map (fun f : Fin 10 => digitToChar f.val)) =
        (false, natToChars ip ++ '.' ::
          frac.map (fun f : Fin 10 => digitToChar f.val)) := by
      apply stripMinus_noMinus
      intro c hc
      rcases List.mem_append.mp hc with h | h
      · exact natToChars_no_minus ip c h
      · rcases List.mem_cons.mp h with h | h
        · subst h; decide
        · obtain ⟨f, _, rfl⟩ := List.mem_map.mp h
          have := charToDigit_digitToChar f.val f.isLt
          intro hcm
          rw [hcm] at this
          simp [charToDigit] at this
    simp only [hstrip]
    exact parseFloatCore_render false ip frac
  | true =>
    have hlist2 : (floatRender ⟨true, ip, frac⟩).toList =
        '-' :: (natToChars ip ++ '.' ::
          frac.map (fun f : Fin 10 => digitToChar f.val)) := by
      simpa using hlist
    rw [hlist2]
    have hstrip : stripMinus ('-' :: (natToChars ip ++ '.' ::
        frac.map (fun f : Fin 10 => digitToChar f.val))) =
        (true, natToChars ip ++ '.' ::
          frac.map (fun f : Fin 10 => digitToChar f.val)) := by
      simp [stripMinus]
    simp only [hstrip]
    exact parseFloatCore_render true ip frac

/-- Printed form of a Python int, mirroring `str` on ints. -/
def intRender (n : Int) : String :=
  (if n < 0 then "-" else "") ++ String.mk (natToChars n.natAbs)

/-- Model of Python `int()` on strings: an optional minus sign followed by
decimal digits. -/
def parseIntPy (s : String) : Option Int :=
  let p := stripMinus s.toList
  if p.2 = [] then Option.none
  else
    match charsToNat? p.2 with
    | some n => some (if p.1 then -(n : Int) else (n : Int))
    | Option.none => Option.none

theorem parseIntPy_intRender (n : Int) : parseIntPy (intRender n) = some n := by
  unfold parseIntPy intRender
  rcases lt_or_le n 0 with hn | hn
  · have hlist : ((if n < 0 then "-" else "") ++ String.mk (natToChars n.natAbs)).toList
        = '-' :: natToChars n.natAbs := by
      rw [if_pos hn]
      simp [String.toList, String.mk]
    rw [hlist]
    have hstrip : stripMinus ('-' :: natToChars n.natAbs) = (true, natToChars n.natAbs) := by
      simp [stripMinus]
    simp only [hstrip]
    rw [if_neg (by exact natToChars_ne_nil n.natAbs)]
    rw [charsToNat_natToChars]
    simp only [if_pos rfl, Option.some.injEq]
    rw [Int.ofNat_natAbs_of_nonpos (le_of_lt hn)]
    exact neg_neg n
  · have hlist : ((if n < 0 then "-" else "") ++ String.mk (natToChars n.natAbs)).toList
        = natToChars n.natAbs := by
      rw [if_neg (by omega)]
      simp [String.toList, String.mk]
    rw [hlist]
    rw [stripMinus_noMinus _ (natToChars_no_minus n.natAbs)]
    simp only
    rw [if_neg (by exact natToChars_ne_nil n.natAbs)]
    rw [charsToNat_natToChars]
    simp only [Bool.false_eq_true, if_false, Option.some.injEq]
    omega

/-! ## Python values

JSON-compatible Python runtime values, as handled by `base.py`.  Python
dicts are modelled as insertion-ordered association lists with distinct
string keys; floats by their decimal printed form (`PyDec`). -/

inductive PyVal where
  | vNone
  | vBool (b : Bool)
  | vInt (n : Int)
  | vFloat (d : PyDec)
  | vStr (s : String)
  | vBytes (bs : List Nat)
  | vList (xs : List PyVal)
  | vDict (entries : List (String × PyVal))

mutual

/-- Model of Python `repr`; for strings the surrounding quotes are kept but
escaping inside the string is not modelled. -/
def pyRepr : PyVal → String
  | .vNone => "None"
  | .vBool true => "True"
  | .vBool false => "False"
  | .vInt n => intRender n
  | .vFloat d => floatRender d
  | .vStr s => "\x27" ++ s ++ "\x27"
  | .vBytes _ => "b\x27...\x27"
  | .vList xs => "[" ++ pyReprList xs ++ "]"
  | .vDict es => "\x7b" ++ pyReprEntries es ++ "\x7d"

/-- Comma-separated reprs of the elements of a list. -/
def pyReprList : List PyVal → String
  | [] => ""
  | [x] => pyRepr x
  | x :: xs => pyRepr x ++ ", " ++ pyReprList xs

/-- Comma-separated reprs of the entries of a dict. -/
def pyReprEntries : List (String × PyVal) → String
  | [] => ""
  | [(k, v)] => "\x27" ++ k ++ "\x27: " ++ pyRepr v
  | (k, v) :: es => "\x27" ++ k ++ "\x27: " ++ pyRepr v ++ ", " ++ pyReprEntries es

end

/-- Model of Python `str()`: identity on strings, `repr` otherwise (the two
agree on every other value kind appearing here). -/
def pyStrOf : PyVal → String
  | .vStr s => s
  | v => pyRepr v

/-- Python truthiness of a value. -/
def pyTruthy : PyVal → Bool
  | .vNone => false
  | .vBool b => b
  | .vInt n => n != 0
  | .vFloat d => d.ip != 0 || d.frac.any (fun f => f.val != 0)
  | .vStr s => s != ""
  | .vBytes bs => !bs.isEmpty
  | .vList xs => !xs.isEmpty
  | .vDict es => !es.isEmpty

/-- Python `is None` test. -/
def isNone : PyVal → Bool
  | .vNone => true
  | _ => false

/-! ## Exceptions raised by the embedded code -/

inductive PyErr where
  | validationError (msg : String)
  | notImplementedError (msg : String)
  | keyError (key : String)
  | typeError (msg : String)
  | attributeError (msg : String)
  | valueError (msg : String)
  | assertionError (msg : String)
  deriving DecidableEq, Repr

/-- Model of Python `len()`. -/
def pyLen : PyVal → Except PyErr Int
  | .vStr s => .ok s.length
  | .vBytes bs => .ok bs.length
  | .vList xs => .ok xs.length
  | .vDict es => .ok es.length
  | _ => .error (.typeError "object has no len()")

/-! ## Ordered dictionaries -/

/-- Lookup in an insertion-ordered dict, first matching key. -/
def dictFind? (es : List (String × PyVal)) (k : String) : Option PyVal :=
  match es with
  | [] => Option.none
  | (k2, v) :: rest => if k2 = k then some v else dictFind? rest k

/-- Python `key in dict`. -/
def dictContains (es : List (String × PyVal)) (k : String) : Bool :=
  (dictFind? es k).isSome

/-- Python `dict[key] = value` (and the `\x7b**d, key: value\x7d` literal):
replaces in place if the key is present, appends otherwise. -/
def dictSet (es : List (String × PyVal)) (k : String) (v : PyVal) :
    List (String × PyVal) :=
  match es with
  | [] => [(k, v)]
  | (k2, w) :: rest => if k2 = k then (k2, v) :: rest else (k2, w) :: dictSet rest k v

/-- Python `s in container` for a string `s`: list membership by equality,
dict key containment, substring test on strings.  (Python raises TypeError
on non-container right operands; the validator only ever applies this to
the schema's `required`/`nullable` lists.) -/
def startsWithChars : List Char → List Char → Bool
  | [], _ => true
  | _ :: _, [] => false
  | a :: as, b :: bs => a = b && startsWithChars as bs

def infixOfChars (needle : List Char) : List Char → Bool
  | [] => needle.isEmpty
  | c :: rest => startsWithChars needle (c :: rest) || infixOfChars needle rest

def pyInStr (s : String) (v : PyVal) : Bool :=
  match v with
  | .vList xs =>
    xs.any (fun x => match x with | .vStr t => t = s | _ => false)
  | .vDict es => dictContains es s
  | .vStr t => infixOfChars s.toList t.toList
  | _ => false

/-! ## Type tables from base.py -/

def METHOD_TYPES : List String := ["query", "procedure", "subscription"]

def LEXICON_TYPES : List String := METHOD_TYPES ++ ["object", "record", "ref", "token"]

def PARAMETER_TYPES : List String := ["array", "boolean", "integer", "number", "string"]

/-- Python runtime types appearing as values of `FIELD_TYPES`. -/
inductive PyType where
  | noneT | boolT | intT | strT | bytesT | listT | dictT
  deriving DecidableEq, Repr

/-- The `FIELD_TYPES` dict of base.py, as a lookup raising `KeyError` (via
`Option.none`) for any type name not among its keys. -/
def FIELD_TYPES (t : String) : Option PyType :=
  if t = "null" then some .noneT
  else if t = "boolean" then some .boolT
  else if t = "integer" then some .intT
  else if t = "string" then some .strT
  else if t = "bytes" then some .bytesT
  else if t = "array" then some .listT
  else if t = "object" then some .dictT
  else Option.none

/-- Python `isinstance` against the classes stored in `FIELD_TYPES`.  Note
that Python `bool` is a subclass of `int`, so booleans pass an `int`
check. -/
def pyIsInstance (v : PyVal) (t : PyType) : Bool :=
  match v, t with
  | .vNone, .noneT => true
  | .vBool _, .boolT => true
  | .vBool _, .intT => true
  | .vInt _, .intT => true
  | .vStr _, .strT => true
  | .vBytes _, .bytesT => true
  | .vList _, .listT => true
  | .vDict _, .dictT => true
  | _, _ => false

/-! ## Attribute and subscript access on Python values -/

/-- Python `d.get(key, default)`; AttributeError when the receiver has no
`get` method (only dicts do here). -/
def pyGetD (v : PyVal) (k : String) (dflt : PyVal) : Except PyErr PyVal :=
  match v with
  | .vDict es => .ok ((dictFind? es k).getD dflt)
  | _ => .error (.attributeError "get")

/-- Python `d[key]` subscription on a dict: KeyError when absent. -/
def pyGetItem (v : PyVal) (k : String) : Except PyErr PyVal :=
  match v with
  | .vDict es =>
    match dictFind? es k with
    | some w => .ok w
    | Option.none => .error (.keyError k)
  | _ => .error (.typeError "object is not subscriptable")

/-- Python `d.items()`. -/
def pyItems (v : PyVal) : Except PyErr (List (String × PyVal)) :=
  match v with
  | .vDict es => .ok es
  | _ => .error (.attributeError "items")

/-- Python `key in obj` on the value under validation. -/
def pyContainsKey (v : PyVal) (k : String) : Except PyErr Bool :=
  match v with
  | .vDict es => .ok (dictContains es k)
  | .vList xs => .ok (pyInStr k (.vList xs))
  | .vStr t => .ok (pyInStr k (.vStr t))
  | _ => .error (.typeError "argument is not iterable")

/-- Python comparison `v == lit` against a string literal: only equal
strings compare equal. -/
def pyEqLit (v : PyVal) (lit : String) : Bool :=
  match v with
  | .vStr s => s = lit
  | _ => false

/-! ## Registry: Base.__init__ and Base._get_def -/

abbrev Registry := List (String × PyVal)

/-- Embedding of `Base._get_def` (base.py lines 143-153): `defs.get(id)`
returns None when absent, and any falsy result — absence, or a stored empty
dict — fails with NotImplementedError. -/
def getDef (defs : Registry) (id : String) : Except PyErr PyVal :=
  let lexicon := (dictFind? defs id).getD .vNone
  if pyTruthy lexicon then .ok lexicon
  else .error (.notImplementedError (id ++ " not found"))

/-- Fully-qualified id of a local definition name (base.py line 124). -/
def fqid (nsid name : String) : String :=
  if name = "main" then nsid else nsid ++ "#" ++ name

/-- Inner loop of `Base.__init__` (lines 123-138): store the definition
under its fully-qualified id, then reject unrecognized types with
ValidationError; the per-field loop of lines 131-136 has an empty body and
is omitted; line 138 stores the same definition again. -/
def loadDefs (nsid : String) (defs : Registry) :
    List (String × PyVal) → Except PyErr Registry
  | [] => .ok defs
  | (name, defn) :: rest =>
    let id := fqid nsid name
    let defs1 := dictSet defs id defn
    match pyGetItem defn "type" with
    | .error e => .error e
    | .ok ty =>
      let tyOk := match ty with
        | .vStr ts => (LEXICON_TYPES ++ PARAMETER_TYPES).contains ts
        | _ => false
      if !tyOk then
        .error (.validationError
          ("Bad type for lexicon " ++ id ++ ": " ++ pyStrOf ty))
      else
        loadDefs nsid (dictSet defs1 id defn) rest

/-- Outer loop of `Base.__init__` (lines 117-138), carrying the running
document index for the error message.  The modelled registry keys are
strings, so a truthy non-string document id is keyed by its `str()` form;
every claim instantiates ids as strings, where the two coincide. -/
def loadLexicons (i : Nat) (defs : Registry) : List PyVal → Except PyErr Registry
  | [] => .ok defs
  | lexicon :: rest =>
    match pyGetD lexicon "id" .vNone with
    | .error e => .error e
    | .ok nsid =>
      if !pyTruthy nsid then
        .error (.validationError
          ("Lexicon " ++ intRender (Int.ofNat i) ++ " missing id field"))
      else
        match pyGetD lexicon "defs" (.vDict []) with
        | .error e => .error e
        | .ok dfs =>
          match pyItems dfs with
          | .error e => .error e
          | .ok entries =>
            match loadDefs (pyStrOf nsid) defs entries with
            | .error e => .error e
            | .ok defs2 => loadLexicons (i + 1) defs2 rest

/-- Embedding of `Base.__init__` (lines 95-141).  Passing `Option.none` as
`lexicons` selects the bundled default documents, which ship as package
data files outside src/ and are therefore a parameter here.  The
`validate`/`truncate` flags are merely stored on the instance; the
empty-registry case at lines 140-141 only logs; deep-copying the documents
is the identity in this pure model. -/
def baseInit (bundled : List PyVal) (lexicons : Option (List PyVal)) :
    Except PyErr Registry :=
  loadLexicons 0 [] (lexicons.getD bundled)

/-! ## Schema validation: Base._maybe_validate -/

/-- Slots admitted by the assert at line 176 of base.py. -/
inductive Slot where
  | input | output | message | parameters | record
  deriving DecidableEq, Repr

def slotStr : Slot → String
  | .input => "input"
  | .output => "output"
  | .message => "message"
  | .parameters => "parameters"
  | .record => "record"

/-- Python slice `s[:i]` on a string, including the negative-index rule. -/
def pySliceTo (s : String) (i : Int) : String :=
  if 0 ≤ i then String.mk (s.toList.take i.toNat)
  else String.mk (s.toList.take (s.length - (-i).toNat))

/-- One iteration of the truncation loop of `_maybe_validate` (base.py
lines 195-204) for property `name` with field schema `config`, threading
the running value `obj`.  A non-int `maxGraphemes` that reaches the
comparison, or a sliced non-string, is a TypeError (float bounds are folded
into that case; no modelled schema uses them). -/
def truncateStep (obj : PyVal) (nameConfig : String × PyVal) :
    Except PyErr PyVal :=
  let name := nameConfig.1
  let config := nameConfig.2
  match pyGetD config "maxGraphemes" .vNone with
  | .error e => .error e
  | .ok maxGraphemes =>
    if pyTruthy maxGraphemes then
      match pyGetD obj name .vNone with
      | .error e => .error e
      | .ok val =>
        if pyTruthy val then
          match pyLen val with
          | .error e => .error e
          | .ok len =>
            match (match maxGraphemes with
              | .vInt m => Except.ok m
              | .vBool b => Except.ok (if b then (1 : Int) else 0)
              | _ => Except.error (PyErr.typeError "comparison not supported")) with
            | .error e => .error e
            | .ok m =>
              if len > m then
                match val with
                | .vStr s =>
                  let tv := PyVal.vStr (pySliceTo s (m - 1) ++ "…")
                  match obj with
                  | .vDict es => .ok (.vDict (dictSet es name tv))
                  | _ => .error (.typeError "argument must be a mapping")
                | _ => .error (.typeError "can only concatenate")
              else .ok obj
        else .ok obj
    else .ok obj

/-- The truncation pass: the property loop folded in declaration order. -/
def truncateProps (props : List (String × PyVal)) (obj : PyVal) :
    Except PyErr PyVal :=
  match props with
  | [] => .ok obj
  | p :: rest =>
    match truncateStep obj p with
    | .error e => .error e
    | .ok obj2 => truncateProps rest obj2

/-- The `FIELD_TYPES[...]` lookup as performed at lines 231 and 238: a
KeyError escapes for any declared type absent from the table (ref, union,
token, cid-link, unknown, ...). -/
def fieldTypeOf (ptype : PyVal) : Except PyErr PyType :=
  match ptype with
  | .vStr ts =>
    match FIELD_TYPES ts with
    | some ft => Except.ok ft
    | Option.none => Except.error (.keyError ts)
  | other => Except.error (.keyError (pyRepr other))

/-- The item loop of lines 236-241, reached only when the SLOT string
equals "array" (see `checkProp`); each iteration performs the
`prop[\x27items\x27][\x27type\x27]` lookups anew, as in the source. -/
def checkItems (nsid t name : String) (prop : PyVal) (ptypeStr : String) :
    List PyVal → Except PyErr Unit
  | [] => .ok ()
  | item :: rest =>
    match pyGetItem prop "items" with
    | .error e => .error e
    | .ok items =>
      match pyGetItem items "type" with
      | .error e => .error e
      | .ok itype =>
        match fieldTypeOf itype with
        | .error e => .error e
        | .ok ft =>
          if !pyIsInstance item ft then
            .error (.validationError
              (nsid ++ " " ++ t ++ ": unexpected item for " ++ ptypeStr ++
                " array property " ++ name ++ ": " ++ pyRepr item))
          else checkItems nsid t name prop ptypeStr rest

/-- Per-property body of the validation loop of `_maybe_validate` (lines
211-241).  `t` in the messages is the SLOT string (the `type` argument of
the Python method); in particular the final comparison `type == \x27array\x27`
at line 236 tests that slot string, not the declared property type. -/
def checkProp (nsid : String) (slot : Slot) (schema : PyVal) (obj : PyVal)
    (nameProp : String × PyVal) : Except PyErr Unit :=
  let name := nameProp.1
  let prop := nameProp.2
  let t := slotStr slot
  match pyContainsKey obj name with
  | .error e => .error e
  | .ok present =>
    if !present then
      match pyGetD schema "required" (.vList []) with
      | .error e => .error e
      | .ok req =>
        if pyInStr name req then
          .error (.validationError
            (nsid ++ " " ++ t ++ " missing required property " ++ name))
        else .ok ()
    else
      match pyGetItem obj name with
      | .error e => .error e
      | .ok val =>
        if isNone val then
          match pyGetD schema "nullable" (.vList []) with
          | .error e => .error e
          | .ok nullable =>
            if !pyInStr name nullable then
              .error (.validationError
                (nsid ++ " " ++ t ++ " property " ++ name ++ " is not nullable"))
            else .ok ()
        else
          match pyGetItem prop "type" with
          | .error e => .error e
          | .ok ptype =>
            match fieldTypeOf ptype with
            | .error e => .error e
            | .ok ftype =>
              if !pyIsInstance val ftype then
                .error (.validationError
                  (nsid ++ " " ++ t ++ ": unexpected value for " ++ pyStrOf ptype ++
                    " property " ++ name ++ ": " ++ pyRepr val))
              else if t = "array" then
                match val with
                | .vList xs => checkItems nsid t name prop (pyStrOf ptype) xs
                | _ => .error (.typeError "not iterable")
              else .ok ()

/-- The validation loop over the declared properties, in order, stopping at
the first failure. -/
def checkProps (nsid : String) (slot : Slot) (schema obj : PyVal) :
    List (String × PyVal) → Except PyErr Unit
  | [] => .ok ()
  | p :: rest =>
    match checkProp nsid slot schema obj p with
    | .error e => .error e
    | .ok _ => checkProps nsid slot schema obj rest

/-- Embedding of `Base._maybe_validate` (base.py lines 155-243), with the
configured `validate`/`truncate` flags passed explicitly.  `.ok
Option.none` models the bare `return` statements (the Python method
returning None); `.ok (some v)` models `return obj`. -/
def maybeValidate (defs : Registry) (validate truncate : Bool) (nsid : String)
    (slot : Slot) (obj : PyVal) : Except PyErr (Option PyVal) :=
  match getDef defs nsid with
  | .error e => .error e
  | .ok defn =>
    match pyGetD defn (slotStr slot) (.vDict []) with
    | .error e => .error e
    | .ok base =>
      match pyGetD base "encoding" .vNone with
      | .error e => .error e
      | .ok encoding =>
        if pyTruthy encoding && !pyEqLit encoding "application/json" then
          .ok (some obj)
        else
          match (match slot with
            | .record => Except.ok base
            | _ => pyGetD base "schema" .vNone) with
          | .error e => .error e
          | .ok schema =>
            if !pyTruthy schema then
              .ok Option.none
            else
              match (if truncate then
                  match pyGetD schema "properties" (.vDict []) with
                  | .error e => .error e
                  | .ok props =>
                    match pyItems props with
                    | .error e => .error e
                    | .ok propsList => truncateProps propsList obj
                else Except.ok obj) with
              | .error e => .error e
              | .ok obj2 =>
                if !validate then
                  .ok Option.none
                else
                  match pyGetD schema "properties" (.vDict []) with
                  | .error e => .error e
                  | .ok props =>
                    match pyItems props with
                    | .error e => .error e
                    | .ok propsList =>
                      match checkProps nsid slot schema obj2 propsList with
                      | .error e => .error e
                      | .ok _ => .ok (some obj2)

/-! ## Parameter codec: Base.encode_params and Base.decode_params -/

/-- Pairs contributed by one parameter in the urlencode call of
`encode_params` (lines 256-261): the dict comprehension maps Python True
and False to the literal strings true/false, doseq=True expands each list
into one pair per item, and every other value is rendered with str().
Percent-encoding and the final joining with = and ampersands are inverted
by the query-string parsing that feeds `decode_params`, and are abstracted
here. -/
def encodePair (nv : String × PyVal) : List (String × String) :=
  match nv.2 with
  | .vBool true => [(nv.1, "true")]
  | .vBool false => [(nv.1, "false")]
  | .vList xs => xs.map (fun x => (nv.1, pyStrOf x))
  | v => [(nv.1, pyStrOf v)]

/-- Embedding of `Base.encode_params` (lines 245-261) at the name/value
pair level. -/
def encode_params (params : List (String × PyVal)) : List (String × String) :=
  (params.map encodePair).flatten

/-- Python `decoded.setdefault(name, []).append(val)` at line 309. -/
def setdefaultAppend (decoded : List (String × PyVal)) (name : String)
    (v : String) : Except PyErr (List (String × PyVal)) :=
  match dictFind? decoded name with
  | some (.vList xs) => .ok (dictSet decoded name (.vList (xs ++ [.vStr v])))
  | some _ => .error (.attributeError "append")
  | Option.none => .ok (decoded ++ [(name, .vList [.vStr v])])

/-- Loop body of `Base.decode_params` (lines 283-309) for one name/value
pair: type defaulting via `or`, the assert on PARAMETER_TYPES, then the
per-type decoding; number and integer parse failures re-raise ValueError
with the parameter name appended to the message. -/
def decodeOne (paramsSchema : List (String × PyVal))
    (decoded : List (String × PyVal)) (nv : String × String) :
    Except PyErr (List (String × PyVal)) :=
  let name := nv.1
  let val := nv.2
  match pyGetD ((dictFind? paramsSchema name).getD (.vDict [])) "type" .vNone with
  | .error e => .error e
  | .ok tyRaw =>
    let tyVal := if pyTruthy tyRaw then tyRaw else PyVal.vStr "string"
    match (match tyVal with
      | .vStr ts =>
        if PARAMETER_TYPES.contains ts then Except.ok ts
        else Except.error (PyErr.assertionError ts)
      | other => Except.error (PyErr.assertionError (pyRepr other))) with
    | .error e => .error e
    | .ok ty =>
      if ty = "boolean" then
        if val = "true" then .ok (dictSet decoded name (.vBool true))
        else if val = "false" then .ok (dictSet decoded name (.vBool false))
        else .error (.valueError
          ("Got " ++ pyRepr (.vStr val) ++ " for boolean parameter " ++ name ++
            ", expected true or false"))
      else if ty = "number" then
        match parseFloat val with
        | some d => .ok (dictSet decoded name (.vFloat d))
        | Option.none => .error (.valueError
          ("could not convert string to float for number parameter " ++ name))
      else if ty = "int" ∨ ty = "integer" then
        match parseIntPy val with
        | some n => .ok (dictSet decoded name (.vInt n))
        | Option.none => .error (.valueError
          ("invalid literal for int for integer parameter " ++ name))
      else if ty = "string" then
        .ok (dictSet decoded name (.vStr val))
      else if ty = "array" then
        setdefaultAppend decoded name val
      else
        .ok decoded

/-- The decoding loop over the supplied pairs, in order. -/
def decodeLoop (paramsSchema : List (String × PyVal))
    (decoded : List (String × PyVal)) :
    List (String × String) → Except PyErr (List (String × PyVal))
  | [] => .ok decoded
  | nv :: rest =>
    match decodeOne paramsSchema decoded nv with
    | .error e => .error e
    | .ok decoded2 => decodeLoop paramsSchema decoded2 rest

/-- Embedding of `Base.decode_params` (lines 263-311). -/
def decode_params (defs : Registry) (methodNsid : String)
    (params : List (String × String)) :
    Except PyErr (List (String × PyVal)) :=
  match getDef defs methodNsid with
  | .error e => .error e
  | .ok lexicon =>
    match pyGetD lexicon "parameters" (.vDict []) with
    | .error e => .error e
    | .ok ps =>
      match pyGetD ps "properties" (.vDict []) with
      | .error e => .error e
      | .ok props =>
        match pyItems props with
        | .error e => .error e
        | .ok paramsSchema => decodeLoop paramsSchema [] params

/-! ## The /xrpc endpoint: flask_server.XrpcEndpoint.dispatch_request -/

/-- Character class of NSID_SEGMENT, `[a-zA-Z0-9-]`. -/
def nsidSegChar (c : Char) : Bool :=
  ('a' ≤ c && c ≤ 'z') || ('A' ≤ c && c ≤ 'Z') || ('0' ≤ c && c ≤ '9') || c = '-'

/-- A segment matches `[a-zA-Z0-9-]+`. -/
def segOk (cs : List Char) : Bool :=
  !cs.isEmpty && cs.all nsidSegChar

/-- Splits a character list at every dot. -/
def dotSplitAll : List Char → List (List Char)
  | [] => [[]]
  | c :: rest =>
    if c = '.' then [] :: dotSplitAll rest
    else
      match dotSplitAll rest with
      | seg :: segs => (c :: seg) :: segs
      | [] => [[c]]

/-- Model of `NSID_RE.match`: one or more `[a-zA-Z0-9-]+` segments joined
by literal dots, anchored on both sides. -/
def nsidMatch (s : String) : Bool :=
  (dotSplitAll s.toList).all segOk

/-- Exceptions a server dispatch can raise, tagged by Python class.
`lexrpc.base.ValidationError` derives from ValueError, while
`jsonschema.ValidationError` — the class flask_server.py actually imports
under the name ValidationError (line 7) — derives directly from Exception;
neither is a subclass of the other.  NotImplementedError derives from
RuntimeError. -/
inductive ServerExc where
  | notImplemented (msg : String)
  | coreValidation (msg : String)
  | jsonschemaValidation (msg : String)
  | otherExc (msg : String)
  deriving DecidableEq, Repr

def excMsg : ServerExc → String
  | .notImplemented m => m
  | .coreValidation m => m
  | .jsonschemaValidation m => m
  | .otherExc m => m

/-- Whether `except NotImplementedError` catches the raised exception. -/
def catchesNotImplemented : ServerExc → Bool
  | .notImplemented _ => true
  | _ => false

/-- Whether `except ValidationError` in flask_server.py catches the raised
exception: the bound name is jsonschema.ValidationError, of which
lexrpc.base.ValidationError is not a subclass. -/
def catchesImportedValidationError : ServerExc → Bool
  | .jsonschemaValidation _ => true
  | _ => false

/-- Outcome of one request: a Flask response, or an exception that escaped
`dispatch_request` (which the framework then reports as a 500). -/
inductive FlaskResult where
  | resp (status : Nat) (body : PyVal)
  | unhandled (e : ServerExc)

/-- Embedding of `XrpcEndpoint.dispatch_request` (flask_server.py lines
38-49), given the outcome of `self.server.call` as a value: `.ok output`
for a normal return, `.error e` for a raised exception. -/
def dispatchRequest (nsid : String) (callResult : Except ServerExc PyVal) :
    FlaskResult :=
  if !nsidMatch nsid then
    .resp 400 (.vDict [("message", .vStr (nsid ++ " is not a valid NSID"))])
  else
    match callResult with
    | .ok output => .resp 200 (if pyTruthy output then output else .vStr "")
    | .error e =>
      if catchesNotImplemented e then
        .resp 501 (.vDict [("message", .vStr (excMsg e))])
      else if catchesImportedValidationError e then
        .resp 400 (.vDict [("message", .vStr (excMsg e))])
      else .unhandled e

/-- Converts an exception raised inside base.py into its class tag as a
server-dispatch exception. -/
def toServerExc : PyErr → ServerExc
  | .validationError m => .coreValidation m
  | .notImplementedError m => .notImplemented m
  | .keyError k => .otherExc k
  | .typeError m => .otherExc m
  | .attributeError m => .otherExc m
  | .valueError m => .otherExc m
  | .assertionError m => .otherExc m

/-- Modelled from the spec: server.py is code of this repository missing
from src/ (only its caller flask_server.py and its tests are present).
Per section 4.6 of the spec the server dispatcher validates inbound
`params` and `input` with the core Schema Validator, invokes the handler,
validates the returned output, and propagates NotFound and ValidationError
failures — which, raised by base.py, are NotImplementedError and
lexrpc.base.ValidationError. -/
def serverCall (defs : Registry) (validate truncate : Bool)
    (handler : PyVal → PyVal → PyVal) (nsid : String) (params input : PyVal) :
    Except ServerExc PyVal :=
  match maybeValidate defs validate truncate nsid .parameters params with
  | .error e => .error (toServerExc e)
  | .ok _ =>
    match maybeValidate defs validate truncate nsid .input input with
    | .error e => .error (toServerExc e)
    | .ok _ =>
      let output := handler params input
      match maybeValidate defs validate truncate nsid .output output with
      | .error e => .error (toServerExc e)
      | .ok _ => .ok output

/-! ## Concrete fixtures

Lexicon documents used to instantiate the claims; `procDoc` is the example
procedure of the spec (section 8). -/

/-- The procedure definition of the spec example: input schema requiring
`bar`, with a string `foo` and an integer `bar`. -/
def procDefn : PyVal := .vDict [
  ("type", .vStr "procedure"),
  ("input", .vDict [
    ("schema", .vDict [
      ("required", .vList [.vStr "bar"]),
      ("properties", .vDict [
        ("foo", .vDict [("type", .vStr "string")]),
        ("bar", .vDict [("type", .vStr "integer")])])])])]

def procDoc : PyVal := .vDict [
  ("id", .vStr "io.example.procedure"),
  ("defs", .vDict [("main", procDefn)])]

def procDefs : Registry := [("io.example.procedure", procDefn)]

/-- A procedure whose input declares an array-typed property `foo` with
integer items. -/
def arrDefn : PyVal := .vDict [
  ("type", .vStr "procedure"),
  ("input", .vDict [
    ("schema", .vDict [
      ("properties", .vDict [
        ("foo", .vDict [
          ("type", .vStr "array"),
          ("items", .vDict [("type", .vStr "integer")])])])])])]

def arrDoc : PyVal := .vDict [
  ("id", .vStr "io.example.thing"),
  ("defs", .vDict [("main", arrDefn)])]

def arrDefs : Registry := [("io.example.thing", arrDefn)]

/-- A record definition with a cross-reference-typed property `biff`. -/
def refDefn : PyVal := .vDict [
  ("type", .vStr "record"),
  ("record", .vDict [
    ("properties", .vDict [
      ("biff", .vDict [
        ("type", .vStr "ref"),
        ("ref", .vStr "io.example.other")])])])]

def refDefs : Registry := [("io.example.withRef", refDefn)]

/-- A query declaring one array-typed parameter `a`. -/
def qDefn : PyVal := .vDict [
  ("type", .vStr "query"),
  ("parameters", .vDict [
    ("type", .vStr "params"),
    ("properties", .vDict [
      ("a", .vDict [("type", .vStr "array")])])])]

def qDefs : Registry := [("io.example.q", qDefn)]

/-! ## C1 -/

/-- C1: the claim — and the spec sentence it quotes — says that for an
array-typed property every item kind is checked against the declared item
type, failing ValidationError on the first mismatch.  The code compares the
SLOT argument `type` (constrained by the assert at line 176 to
input/output/message/parameters/record) with the string "array" at line
236, so the item loop is unreachable and a wrong-kind item is accepted:
validating `\x7bfoo: ["x"]\x7d` against an integer-items array property
succeeds and returns the value, even though the loop body itself (modelled
by `checkItems`) would have rejected the item.  This theorem evaluates the
embedded code at that failing input. -/
theorem c1_array_item_check_dead :
    baseInit [] (some [arrDoc]) = .ok arrDefs ∧
    maybeValidate arrDefs true false "io.example.thing" .input
      (.vDict [("foo", .vList [.vStr "x"])]) =
      .ok (some (.vDict [("foo", .vList [.vStr "x"])])) ∧
    checkItems "io.example.thing" "input" "foo"
      (.vDict [("type", .vStr "array"),
               ("items", .vDict [("type", .vStr "integer")])])
      "array" [.vStr "x"] =
      .error (.validationError
        ("io.example.thing input: unexpected item for array array property foo: \x27x\x27")) :=
  ⟨rfl, rfl, rfl⟩

/-! ## Registry lemmas for C7, C8 and C10 -/

theorem dictFind?_dictSet (es : List (String × PyVal)) (k0 k : String) (v : PyVal) :
    dictFind? (dictSet es k0 v) k = if k0 = k then some v else dictFind? es k := by
  induction es with
  | nil =>
    simp only [dictSet, dictFind?]
  | cons p rest ih =>
    obtain ⟨k2, w⟩ := p
    by_cases h2 : k2 = k0
    · subst h2
      by_cases h3 : k2 = k
      · subst h3
        simp [dictSet, dictFind?]
      · simp [dictSet, dictFind?, h3]
    · by_cases h3 : k2 = k
      · subst h3
        have h4 : ¬ k0 = k2 := fun h => h2 h.symm
        simp [dictSet, dictFind?, h2, h4]
      · simp [dictSet, dictFind?, h2, h3, ih]

theorem mem_dictSet (es : List (String × PyVal)) (k : String) (v : PyVal) :
    ∀ p ∈ dictSet es k v, p = (k, v) ∨ p ∈ es := by
  induction es with
  | nil => simp [dictSet]
  | cons q rest ih =>
    obtain ⟨k2, w⟩ := q
    intro p hp
    by_cases h2 : k2 = k
    · subst h2
      simp only [dictSet, if_pos rfl] at hp
      rcases List.mem_cons.mp hp with h | h
      · exact Or.inl (by simpa using h)
      · exact Or.inr (List.mem_cons_of_mem _ h)
    · simp only [dictSet, if_neg h2] at hp
      rcases List.mem_cons.mp hp with h | h
      · exact Or.inr (h ▸ List.mem_cons_self _ _)
      · rcases ih p h with h | h
        · exact Or.inl h
        · exact Or.inr (List.mem_cons_of_mem _ h)

theorem dictFind?_some_mem :
    ∀ (es : List (String × PyVal)) (k : String) (v : PyVal),
      dictFind? es k = some v → (k, v) ∈ es := by
  intro es
  induction es with
  | nil => intro k v h; simp [dictFind?] at h
  | cons p rest ih =>
    intro k v h
    obtain ⟨k2, w⟩ := p
    simp only [dictFind?] at h
    by_cases h2 : k2 = k
    · subst h2
      rw [if_pos rfl] at h
      injection h with h
      subst h
      exact List.mem_cons_self _ _
    · rw [if_neg h2] at h
      exact List.mem_cons_of_mem _ (ih k v h)

theorem pyGetItem_ok (v : PyVal) (k : String) (w : PyVal)
    (h : pyGetItem v k = .ok w) : ∃ es, v = .vDict es ∧ dictFind? es k = some w := by
  cases v with
  | vDict es =>
    refine ⟨es, rfl, ?_⟩
    cases hf : dictFind? es k with
    | none => simp [pyGetItem, hf] at h
    | some u => simpa [pyGetItem, hf] using h
  | vNone => simp [pyGetItem] at h
  | vBool b => simp [pyGetItem] at h
  | vInt n => simp [pyGetItem] at h
  | vFloat d => simp [pyGetItem] at h
  | vStr s => simp [pyGetItem] at h
  | vBytes bs => simp [pyGetItem] at h
  | vList xs => simp [pyGetItem] at h

theorem dict_truthy_of_find (es : List (String × PyVal)) (k : String) (w : PyVal)
    (h : dictFind? es k = some w) : pyTruthy (.vDict es) = true := by
  cases es with
  | nil => simp [dictFind?] at h
  | cons p rest => simp [pyTruthy]

/-- All definitions ever stored by the inner load loop are truthy: each one
passed the `defn[\x27type\x27]` subscription, so it is a nonempty dict. -/
theorem loadDefs_truthy :
    ∀ (entries : List (String × PyVal)) nsid defs r,
      (∀ p ∈ defs, pyTruthy p.2 = true) →
      loadDefs nsid defs entries = .ok r → ∀ p ∈ r, pyTruthy p.2 = true := by
  intro entries
  induction entries with
  | nil =>
    intro nsid defs r hall h
    simp only [loadDefs] at h
    cases h
    exact hall
  | cons nd rest ih =>
    intro nsid defs r hall h
    obtain ⟨name, defn⟩ := nd
    simp only [loadDefs] at h
    split at h
    · simp at h
    · rename_i ty hty
      split at h
      · simp at h
      · obtain ⟨des, rfl, hfind⟩ := pyGetItem_ok defn "type" ty hty
        have hdt : pyTruthy (.vDict des) = true :=
          dict_truthy_of_find des "type" ty hfind
        refine ih nsid _ r ?_ h
        intro p hp
        rcases mem_dictSet _ _ _ p hp with h1 | h1
        · subst h1; exact hdt
        · rcases mem_dictSet _ _ _ p h1 with h2 | h2
          · subst h2; exact hdt
          · exact hall p h2

/-- All definitions stored by the document loop are truthy. -/
theorem loadLexicons_truthy :
    ∀ (docs : List PyVal) i defs r,
      (∀ p ∈ defs, pyTruthy p.2 = true) →
      loadLexicons i defs docs = .ok r → ∀ p ∈ r, pyTruthy p.2 = true := by
  intro docs
  induction docs with
  | nil =>
    intro i defs r hall h
    simp only [loadLexicons] at h
    cases h
    exact hall
  | cons doc rest ih =>
    intro i defs r hall h
    simp only [loadLexicons] at h
    split at h
    · simp at h
    · rename_i nsid hid
      split at h
      · simp at h
      · split at h
        · simp at h
        · rename_i dfs hdfs
          split at h
          · simp at h
          · rename_i entries hit
            split at h
            · simp at h
            · rename_i defs2 hld
              exact ih (i + 1) defs2 r
                (loadDefs_truthy entries (pyStrOf nsid) defs defs2 hall hld) h

/-! ## C8 -/

/-- C8: for any registry produced by a successful construction, lookup
returns the stored definition when one was loaded under the id, and fails
with NotImplementedError exactly when no definition was loaded under that
key — it never returns a default. -/
theorem c8_get_def_exact (bundled docs : List PyVal) (r : Registry)
    (hinit : baseInit bundled (some docs) = .ok r) (id : String) :
    (∀ d, dictFind? r id = some d → getDef r id = .ok d) ∧
    (dictFind? r id = Option.none →
      getDef r id = .error (.notImplementedError (id ++ " not found"))) := by
  have htruthy : ∀ p ∈ r, pyTruthy p.2 = true := by
    refine loadLexicons_truthy docs 0 [] r ?_ hinit
    intro p hp
    simp at hp
  constructor
  · intro d hfind
    have : pyTruthy d = true := htruthy (id, d) (dictFind?_some_mem r id d hfind)
    simp [getDef, hfind, this]
  · intro hfind
    simp [getDef, hfind, pyTruthy]

/-- Witness for C8: with the example registry, the unregistered identifier
io.unknown.thing fails with the NotFound-class error, while the registered
one returns its stored definition. -/
theorem c8_get_def_exact_witness :
    getDef procDefs "io.unknown.thing" =
      .error (.notImplementedError "io.unknown.thing not found") ∧
    getDef procDefs "io.example.procedure" = .ok procDefn :=
  ⟨(c8_get_def_exact [] [procDoc] procDefs rfl "io.unknown.thing").2 rfl,
   (c8_get_def_exact [] [procDoc] procDefs rfl "io.example.procedure").1 procDefn rfl⟩

/-! ## C10 -/

/-- C10: an explicitly empty lexicon sequence does not trigger the bundled
default fallback (whatever the bundled set is): construction succeeds with
an empty registry, after which every lookup and every validation call fails
with NotImplementedError. -/
theorem c10_empty_sequence_no_fallback :
    ∀ (bundled : List PyVal),
      baseInit bundled (some []) = .ok [] ∧
      (∀ (id : String), getDef ([] : Registry) id =
        .error (.notImplementedError (id ++ " not found"))) ∧
      (∀ (validate truncate : Bool) (nsid : String) (slot : Slot) (obj : PyVal),
        maybeValidate [] validate truncate nsid slot obj =
          .error (.notImplementedError (nsid ++ " not found"))) :=
  fun _ => ⟨rfl, fun _ => rfl, fun _ _ _ _ _ => rfl⟩

/-! ## C9 -/

/-- C9: the endpoint does return 400 for an identifier failing the grammar,
501 for the NotFound-class error, 200 with the JSON body on success, and
400 for jsonschema.ValidationError — but a ValidationError raised by the
core validator (lexrpc.base.ValidationError, reaching flask via the
spec-modelled server dispatch) is not caught by the
`except ValidationError` clause, whose bound name is the unrelated
jsonschema class: the exception escapes the handler instead of producing
the 400 the claim describes. -/
theorem c9_endpoint_status_codes :
    dispatchRequest "b@d" (.ok .vNone) =
      .resp 400 (.vDict [("message", .vStr "b@d is not a valid NSID")]) ∧
    dispatchRequest "io.unknown.thing"
      (serverCall procDefs true false (fun _ i => i) "io.unknown.thing"
        (.vDict []) (.vDict [])) =
      .resp 501 (.vDict [("message", .vStr "io.unknown.thing not found")]) ∧
    dispatchRequest "io.example.procedure"
      (serverCall procDefs true false (fun _ i => i) "io.example.procedure"
        (.vDict []) (.vDict [("foo", .vStr "xyz"), ("bar", .vInt 3)])) =
      .resp 200 (.vDict [("foo", .vStr "xyz"), ("bar", .vInt 3)]) ∧
    dispatchRequest "io.example.procedure" (.error (.jsonschemaValidation "boom")) =
      .resp 400 (.vDict [("message", .vStr "boom")]) ∧
    dispatchRequest "io.example.procedure"
      (serverCall procDefs true false (fun _ i => i) "io.example.procedure"
        (.vDict []) (.vDict [("foo", .vStr "xyz")])) =
      .unhandled (.coreValidation
        "io.example.procedure input missing required property bar") :=
  ⟨rfl, rfl, rfl, rfl, rfl⟩

/-! ## C2 counterexample -/

/-- C2 fails on the code: with validation disabled and a declared schema,
`_maybe_validate` executes the bare `return` at line 207 and yields None,
not the caller value the claim promises. -/
theorem c2_validate_disabled_returns_none_cex :
    maybeValidate procDefs false false "io.example.procedure" .input
      (.vDict [("foo", .vStr "xyz"), ("bar", .vInt 3)]) = .ok Option.none ∧
    (Except.ok Option.none : Except PyErr (Option PyVal)) ≠
      .ok (some (.vDict [("foo", .vStr "xyz"), ("bar", .vInt 3)])) :=
  ⟨rfl, by simp⟩

/-! ## C5 counterexample -/

/-- C5 fails on the code: a present cross-reference-typed field is not
silently accepted — the `FIELD_TYPES[prop["type"]]` lookup at line 231
raises KeyError for the type name "ref". -/
theorem c5_ref_field_keyerror_cex :
    maybeValidate refDefs true false "io.example.withRef" .record
      (.vDict [("biff", .vDict [("baj", .vStr "ok")])]) =
      .error (.keyError "ref") := rfl

/-! ## C6 counterexample -/

/-- C6 fails on the code: an empty array parameter is dropped entirely by
urlencode with doseq=True, so the round trip loses the key: decoding the
encoding of `\x7ba: []\x7d` yields the empty mapping. -/
theorem c6_empty_array_cex :
    encode_params [("a", PyVal.vList [])] = [] ∧
    decode_params qDefs "io.example.q" (encode_params [("a", PyVal.vList [])]) =
      .ok [] ∧
    (Except.ok [] : Except PyErr (List (String × PyVal))) ≠
      .ok [("a", PyVal.vList [])] :=
  ⟨rfl, rfl, by simp⟩

/-! ## C3 -/

theorem slotStr_ne_array (slot : Slot) : ¬ slotStr slot = "array" := by
  cases slot <;> simp [slotStr]

/-- C3: per declared property, an absent required property fails
ValidationError naming it; a null non-nullable property fails
ValidationError; an absent optional property and a null nullable property
are skipped; and on the spec example input `\x7bfoo: "xyz", bar: 3\x7d`
validates and is returned unchanged while `\x7bfoo: "xyz"\x7d` fails with a
ValidationError naming bar. -/
theorem c3_required_nullable :
    (∀ (nsid : String) (slot : Slot) (ses oes : List (String × PyVal))
       (name : String) (prop req : PyVal),
       dictContains oes name = false →
       (dictFind? ses "required").getD (.vList []) = req →
       pyInStr name req = true →
       checkProp nsid slot (.vDict ses) (.vDict oes) (name, prop) =
         .error (.validationError
           (nsid ++ " " ++ slotStr slot ++ " missing required property " ++ name))) ∧
    (∀ (nsid : String) (slot : Slot) (ses oes : List (String × PyVal))
       (name : String) (prop nl : PyVal),
       dictFind? oes name = some .vNone →
       (dictFind? ses "nullable").getD (.vList []) = nl →
       pyInStr name nl = false →
       checkProp nsid slot (.vDict ses) (.vDict oes) (name, prop) =
         .error (.validationError
           (nsid ++ " " ++ slotStr slot ++ " property " ++ name ++ " is not nullable"))) ∧
    (∀ (nsid : String) (slot : Slot) (ses oes : List (String × PyVal))
       (name : String) (prop req : PyVal),
       dictContains oes name = false →
       (dictFind? ses "required").getD (.vList []) = req →
       pyInStr name req = false →
       checkProp nsid slot (.vDict ses) (.vDict oes) (name, prop) = .ok ()) ∧
    (∀ (nsid : String) (slot : Slot) (ses oes : List (String × PyVal))
       (name : String) (prop nl : PyVal),
       dictFind? oes name = some .vNone →
       (dictFind? ses "nullable").getD (.vList []) = nl →
       pyInStr name nl = true →
       checkProp nsid slot (.vDict ses) (.vDict oes) (name, prop) = .ok ()) ∧
    maybeValidate procDefs true false "io.example.procedure" .input
      (.vDict [("foo", .vStr "xyz"), ("bar", .vInt 3)]) =
      .ok (some (.vDict [("foo", .vStr "xyz"), ("bar", .vInt 3)])) ∧
    maybeValidate procDefs true false "io.example.procedure" .input
      (.vDict [("foo", .vStr "xyz")]) =
      .error (.validationError
        "io.example.procedure input missing required property bar") := by
  refine ⟨?_, ?_, ?_, ?_, rfl, rfl⟩
  · intro nsid slot ses oes name prop req hc hreq hin
    simp [checkProp, pyContainsKey, pyGetD, hc, hreq, hin]
  · intro nsid slot ses oes name prop nl hval hnl hnin
    have hc : dictContains oes name = true := by
      simp [dictContains, hval]
    simp [checkProp, pyContainsKey, pyGetItem, pyGetD, hc, hval, hnl, hnin, isNone]
  · intro nsid slot ses oes name prop req hc hreq hin
    simp [checkProp, pyContainsKey, pyGetD, hc, hreq, hin]
  · intro nsid slot ses oes name prop nl hval hnl hnin
    have hc : dictContains oes name = true := by
      simp [dictContains, hval]
    simp [checkProp, pyContainsKey, pyGetItem, pyGetD, hc, hval, hnl, hnin, isNone]

/-- Witness for C3: each generic part applied at a concrete input. -/
theorem c3_required_nullable_witness :
    checkProp "io.example.procedure" .input
      (.vDict [("required", .vList [.vStr "bar"]),
               ("properties", .vDict [
                 ("foo", .vDict [("type", .vStr "string")]),
                 ("bar", .vDict [("type", .vStr "integer")])])])
      (.vDict [("foo", .vStr "xyz")])
      ("bar", .vDict [("type", .vStr "integer")]) =
      .error (.validationError
        "io.example.procedure input missing required property bar") ∧
    checkProp "io.example.n" .record (.vDict []) (.vDict [("n", .vNone)])
      ("n", .vDict [("type", .vStr "string")]) =
      .error (.validationError "io.example.n record property n is not nullable") ∧
    checkProp "io.example.n" .record (.vDict []) (.vDict [])
      ("opt", .vDict [("type", .vStr "string")]) = .ok () ∧
    checkProp "io.example.n" .record
      (.vDict [("nullable", .vList [.vStr "n"])]) (.vDict [("n", .vNone)])
      ("n", .vDict [("type", .vStr "string")]) = .ok () :=
  ⟨c3_required_nullable.1 "io.example.procedure" .input _ _ "bar" _ _ rfl rfl rfl,
   c3_required_nullable.2.1 "io.example.n" .record _ _ "n" _ _ rfl rfl rfl,
   c3_required_nullable.2.2.1 "io.example.n" .record _ _ "opt" _ _ rfl rfl rfl,
   c3_required_nullable.2.2.2.1 "io.example.n" .record _ _ "n" _ _ rfl rfl rfl⟩

/-! ## C5 amended -/

/-- A record definition with a datetime-format string property. -/
def dtDefn : PyVal := .vDict [
  ("type", .vStr "record"),
  ("record", .vDict [
    ("properties", .vDict [
      ("when", .vDict [("type", .vStr "string"), ("format", .vStr "datetime")])])])]

def dtDefs : Registry := [("io.example.dt", dtDefn)]

/-- C5 as amended: a datetime-format string property is indeed accepted
with no format check and the value is returned unaltered; but a present
non-null field whose declared property type is absent from FIELD_TYPES
(ref, union, token, cid-link, ...) raises an uncaught KeyError from the
`FIELD_TYPES[prop["type"]]` lookup instead of being accepted. -/
theorem c5_unsupported_constructs_amended :
    (∀ (nsid : String) (slot : Slot) (schema : PyVal)
       (oes pes : List (String × PyVal)) (name s : String),
       dictFind? pes "type" = some (.vStr "string") →
       dictFind? oes name = some (.vStr s) →
       checkProp nsid slot schema (.vDict oes) (name, .vDict pes) = .ok ()) ∧
    (∀ (nsid : String) (slot : Slot) (schema : PyVal)
       (oes pes : List (String × PyVal)) (name ts : String) (val : PyVal),
       dictFind? pes "type" = some (.vStr ts) →
       FIELD_TYPES ts = Option.none →
       dictFind? oes name = some val →
       isNone val = false →
       checkProp nsid slot schema (.vDict oes) (name, .vDict pes) =
         .error (.keyError ts)) ∧
    maybeValidate dtDefs true false "io.example.dt" .record
      (.vDict [("when", .vStr "not even a datetime")]) =
      .ok (some (.vDict [("when", .vStr "not even a datetime")])) := by
  refine ⟨?_, ?_, rfl⟩
  · intro nsid slot schema oes pes name s hty hval
    have hc : dictContains oes name = true := by
      simp [dictContains, hval]
    simp [checkProp, pyContainsKey, pyGetItem, pyGetD, hc, hval, hty, isNone,
      fieldTypeOf, FIELD_TYPES, pyIsInstance, slotStr_ne_array slot]
  · intro nsid slot schema oes pes name ts val hty hft hval hnn
    have hc : dictContains oes name = true := by
      simp [dictContains, hval]
    simp [checkProp, pyContainsKey, pyGetItem, pyGetD, hc, hval, hty, hnn,
      fieldTypeOf, hft]

/-- Witness for C5: the datetime part at a concrete record, and the
KeyError part at a concrete ref-typed property. -/
theorem c5_unsupported_constructs_witness :
    checkProp "io.example.dt" .record (.vDict [])
      (.vDict [("when", .vStr "1985-04-12T23:20:50Z")])
      ("when", .vDict [("type", .vStr "string"), ("format", .vStr "datetime")]) =
      .ok () ∧
    checkProp "io.example.withRef" .record (.vDict [])
      (.vDict [("biff", .vDict [("baj", .vStr "ok")])])
      ("biff", .vDict [("type", .vStr "ref"), ("ref", .vStr "io.example.other")]) =
      .error (.keyError "ref") :=
  ⟨c5_unsupported_constructs_amended.1 "io.example.dt" .record _ _ _ "when"
      "1985-04-12T23:20:50Z" rfl rfl,
   c5_unsupported_constructs_amended.2.1 "io.example.withRef" .record _ _ _
      "biff" "ref" _ rfl rfl rfl rfl⟩

/-! ## C2 amended -/

/-- A record definition with a maxGraphemes bound, as in the tests of the
repository (io.example.stringLength). -/
def strDefn : PyVal := .vDict [
  ("type", .vStr "record"),
  ("record", .vDict [
    ("properties", .vDict [
      ("string", .vDict [("type", .vStr "string"), ("maxGraphemes", .vInt 10)])])])]

def strDefs : Registry := [("io.example.stringLength", strDefn)]

/-- C2 as amended: with validation disabled and a declared schema (and no
non-JSON encoding), the validator returns None — not the value; when
truncation is also enabled, the truncated copy is computed and then
discarded by the bare `return` at line 207 (whereas with validation on it
is returned). -/
theorem c2_validate_disabled_amended :
    (∀ (defs : Registry) (nsid : String) (slot : Slot)
       (obj defn base0 enc schema : PyVal),
       getDef defs nsid = .ok defn →
       pyGetD defn (slotStr slot) (.vDict []) = .ok base0 →
       pyGetD base0 "encoding" .vNone = .ok enc →
       (pyTruthy enc && !pyEqLit enc "application/json") = false →
       (match slot with
         | Slot.record => Except.ok base0
         | _ => pyGetD base0 "schema" .vNone) = Except.ok schema →
       pyTruthy schema = true →
       maybeValidate defs false false nsid slot obj = .ok Option.none) ∧
    maybeValidate strDefs false true "io.example.stringLength" .record
      (.vDict [("string", .vStr "too many graphemes")]) = .ok Option.none ∧
    maybeValidate strDefs true true "io.example.stringLength" .record
      (.vDict [("string", .vStr "too many graphemes")]) =
      .ok (some (.vDict [("string", .vStr "too many …")])) := by
  refine ⟨?_, rfl, rfl⟩
  intro defs nsid slot obj defn base0 enc schema h1 h2 h3 h4 h5 h6
  cases slot
  case record =>
    injection h5 with h5e
    subst h5e
    simp [maybeValidate, h1, h2, h3, h4, h6]
  all_goals
    simp only [] at h5
    simp [maybeValidate, h1, h2, h3, h4, h5, h6]

/-- Witness for C2: the generic part applied to the example procedure with
an empty input object. -/
theorem c2_validate_disabled_witness :
    maybeValidate procDefs false false "io.example.procedure" .input
      (.vDict []) = .ok Option.none :=
  c2_validate_disabled_amended.1 procDefs "io.example.procedure" .input
    (.vDict []) _ _ _ _ rfl rfl rfl rfl rfl rfl

/-! ## C4 -/

/-- Side conditions under which one truncation iteration cannot raise: the
field schema is a dict and, when its maxGraphemes bound is truthy, the
bound is an int and the corresponding field of the value is either falsy or
a string.  (These hold for every schema and value the claims range over;
outside them Python raises TypeError from `len`, the comparison, or the
concatenation.) -/
def truncStepSafe (oes : List (String × PyVal)) (nc : String × PyVal) : Prop :=
  ∃ ces, nc.2 = PyVal.vDict ces ∧
    (pyTruthy ((dictFind? ces "maxGraphemes").getD .vNone) = true →
      (∃ m : Int, (dictFind? ces "maxGraphemes").getD .vNone = .vInt m) ∧
      (pyTruthy ((dictFind? oes nc.1).getD .vNone) = false ∨
       ∃ s, (dictFind? oes nc.1).getD .vNone = .vStr s))

theorem getD_vStr_find (oes : List (String × PyVal)) (name : String) (s : String)
    (h : (dictFind? oes name).getD .vNone = .vStr s) :
    dictFind? oes name = some (.vStr s) := by
  cases hf : dictFind? oes name with
  | none => rw [hf] at h; simp at h
  | some v => rw [hf] at h; simp at h; rw [h]

/-- One truncation iteration: it succeeds, touches no other field, and on a
property with a positive int maxGraphemes bound and a present string field
it leaves the field unchanged when within the bound and replaces it by the
first `max-1` characters plus an ellipsis otherwise. -/
theorem truncateStep_char (oes : List (String × PyVal)) (name : String) (cfg : PyVal)
    (hsafe : truncStepSafe oes (name, cfg)) :
    ∃ oes2, truncateStep (.vDict oes) (name, cfg) = .ok (.vDict oes2) ∧
      (∀ n, n ≠ name → dictFind? oes2 n = dictFind? oes n) ∧
      (∀ (ces : List (String × PyVal)) (m : Int) (s : String),
        cfg = .vDict ces →
        (dictFind? ces "maxGraphemes").getD .vNone = .vInt m → 0 < m →
        (dictFind? oes name).getD .vNone = .vStr s →
        dictFind? oes2 name = some (.vStr
          (if m < (s.length : Int) then pySliceTo s (m - 1) ++ "…" else s))) := by
  obtain ⟨ces, hcfg, hmg⟩ := hsafe
  simp only [] at hcfg hmg
  subst hcfg
  cases htr : pyTruthy ((dictFind? ces "maxGraphemes").getD .vNone) with
  | false =>
    refine ⟨oes, ?_, fun n _ => rfl, ?_⟩
    · simp [truncateStep, pyGetD, htr]
    · intro ces2 m s hces hm hmpos hfield
      injection hces with hces
      subst hces
      rw [hm] at htr
      simp [pyTruthy] at htr
      omega
  | true =>
    obtain ⟨⟨m0, hm0⟩, hfield0⟩ := hmg htr
    cases hvt : pyTruthy ((dictFind? oes name).getD .vNone) with
    | false =>
      refine ⟨oes, ?_, fun n _ => rfl, ?_⟩
      · simp [truncateStep, pyGetD, htr, hvt]
      · intro ces2 m s hces hm hmpos hfield
        injection hces with hces
        subst hces
        have hfind := getD_vStr_find oes name s hfield
        rw [hfield] at hvt
        simp [pyTruthy] at hvt
        subst hvt
        have : ¬ (m < (("" : String).length : Int)) := by
          simp
          omega
        rw [if_neg this, hfind]
    | true =>
      rcases hfield0 with hcontra | ⟨s0, hs0⟩
      · rw [hcontra] at hvt; cases hvt
      have htri : pyTruthy (PyVal.vInt m0) = true := by rw [← hm0]; exact htr
      have htrs : pyTruthy (PyVal.vStr s0) = true := by rw [← hs0]; exact hvt
      cases hcmp : decide (m0 < (s0.length : Int)) with
      | true =>
        have hlt : m0 < (s0.length : Int) := of_decide_eq_true hcmp
        refine ⟨dictSet oes name (.vStr (pySliceTo s0 (m0 - 1) ++ "…")), ?_, ?_, ?_⟩
        · simp only [truncateStep, pyGetD, htr, hvt, hm0, hs0, if_pos, pyLen]
          have hgt : ((s0.length : Int) > m0) = True := by
            simp
            omega
          simp [hgt, htri, htrs]
        · intro n hn
          rw [dictFind?_dictSet]
          rw [if_neg (fun h => hn h.symm)]
        · intro ces2 m s hces hm hmpos hfield
          injection hces with hces
          subst hces
          rw [hm0] at hm
          injection hm with hm
          subst hm
          rw [hs0] at hfield
          injection hfield with hfield
          subst hfield
          rw [dictFind?_dictSet, if_pos rfl, if_pos hlt]
      | false =>
        have hge : ¬ m0 < (s0.length : Int) := of_decide_eq_false hcmp
        refine ⟨oes, ?_, fun n _ => rfl, ?_⟩
        · simp only [truncateStep, pyGetD, htr, hvt, hm0, hs0, pyLen]
          have hngt : ((s0.length : Int) > m0) = False := by
            simp
            omega
          simp [hngt, htri, htrs]
        · intro ces2 m s hces hm hmpos hfield
          injection hces with hces
          subst hces
          rw [hm0] at hm
          injection hm with hm
          subst hm
          rw [hs0] at hfield
          injection hfield with hfield
          subst hfield
          rw [if_neg hge]
          exact getD_vStr_find oes name s0 hs0

/-- The full truncation pass, by induction over the declared properties. -/
theorem truncateProps_spec :
    ∀ (props oes : List (String × PyVal)),
      (props.map Prod.fst).Nodup →
      (∀ nc ∈ props, truncStepSafe oes nc) →
      ∃ oes2, truncateProps props (.vDict oes) = .ok (.vDict oes2) ∧
        (∀ n, n ∉ props.map Prod.fst → dictFind? oes2 n = dictFind? oes n) ∧
        (∀ nc ∈ props, ∀ (ces : List (String × PyVal)) (m : Int) (s : String),
          nc.2 = .vDict ces →
          (dictFind? ces "maxGraphemes").getD .vNone = .vInt m → 0 < m →
          (dictFind? oes nc.1).getD .vNone = .vStr s →
          dictFind? oes2 nc.1 = some (.vStr
            (if m < (s.length : Int) then pySliceTo s (m - 1) ++ "…" else s))) := by
  intro props
  induction props with
  | nil =>
    intro oes _ _
    exact ⟨oes, rfl, fun n _ => rfl, fun nc h => absurd h (List.not_mem_nil nc)⟩
  | cons nc0 rest ih =>
    intro oes hnd hsafe
    obtain ⟨name, cfg⟩ := nc0
    have hnd2 : (name :: rest.map Prod.fst).Nodup := by simpa using hnd
    have hnotin : name ∉ rest.map Prod.fst := (List.nodup_cons.mp hnd2).1
    have hndrest : (rest.map Prod.fst).Nodup := (List.nodup_cons.mp hnd2).2
    obtain ⟨oes1, hstep, huntouched, hhead⟩ :=
      truncateStep_char oes name cfg (hsafe (name, cfg) (List.mem_cons_self _ _))
    have hfields1 : ∀ nc ∈ rest, dictFind? oes1 nc.1 = dictFind? oes nc.1 := by
      intro nc hnc
      refine huntouched nc.1 ?_
      intro h
      exact hnotin (h ▸ List.mem_map_of_mem Prod.fst hnc)
    have hsafe1 : ∀ nc ∈ rest, truncStepSafe oes1 nc := by
      intro nc hnc
      obtain ⟨ces, hces, hmg⟩ := hsafe nc (List.mem_cons_of_mem _ hnc)
      exact ⟨ces, hces, by rw [hfields1 nc hnc]; exact hmg⟩
    obtain ⟨oes2, hloop, huntouched2, hrest⟩ := ih oes1 hndrest hsafe1
    refine ⟨oes2, ?_, ?_, ?_⟩
    · simp only [truncateProps, hstep]
      exact hloop
    · intro n hn
      have hn1 : n ∉ rest.map Prod.fst := fun h => hn (List.mem_cons_of_mem _ h)
      have hn2 : n ≠ name := by
        intro h
        exact hn (by simp [h])
      rw [huntouched2 n hn1, huntouched n hn2]
    · intro nc hnc ces m s hces hm hmpos hfield
      rcases List.mem_cons.mp hnc with h | h
      · subst h
        rw [huntouched2 name hnotin]
        exact hhead ces m s hces hm hmpos hfield
      · refine hrest nc h ces m s hces hm hmpos ?_
        rw [hfields1 nc h]
        exact hfield

/-- C4: with truncation enabled, for every property with a positive int
maxGraphemes bound m and a present string field: the pass succeeds, leaves
every other field of the (copied) value untouched, leaves the field
unchanged when its length is at most m, and otherwise replaces it with its
first m-1 characters followed by a single ellipsis — whose total length is
exactly m, so truncation never increases a field's length.  (The source
builds the result as `\x7b**obj, name: ...\x7d`, a copy; mutation of the
caller value cannot be expressed in this pure embedding.) -/
theorem c4_truncation :
    ∀ (props oes : List (String × PyVal)),
      (props.map Prod.fst).Nodup →
      (∀ nc ∈ props, truncStepSafe oes nc) →
      ∃ oes2, truncateProps props (.vDict oes) = .ok (.vDict oes2) ∧
        (∀ n, n ∉ props.map Prod.fst → dictFind? oes2 n = dictFind? oes n) ∧
        (∀ nc ∈ props, ∀ (ces : List (String × PyVal)) (m : Int) (s : String),
          nc.2 = .vDict ces →
          (dictFind? ces "maxGraphemes").getD .vNone = .vInt m → 0 < m →
          (dictFind? oes nc.1).getD .vNone = .vStr s →
          ∃ s2, dictFind? oes2 nc.1 = some (.vStr s2) ∧
            s2 = (if m < (s.length : Int) then pySliceTo s (m - 1) ++ "…" else s) ∧
            s2.length ≤ s.length ∧
            ((s.length : Int) ≤ m → s2 = s) ∧
            (m < (s.length : Int) →
              s2 = pySliceTo s (m - 1) ++ "…" ∧ (s2.length : Int) = m)) := by
  intro props oes hnd hsafe
  obtain ⟨oes2, h1, h2, h3⟩ := truncateProps_spec props oes hnd hsafe
  refine ⟨oes2, h1, h2, ?_⟩
  intro nc hnc ces m s hces hm hmpos hfield
  refine ⟨_, h3 nc hnc ces m s hces hm hmpos hfield, rfl, ?_, ?_, ?_⟩
  · by_cases hlt : m < (s.length : Int)
    · rw [if_pos hlt]
      have hlen : (pySliceTo s (m - 1) ++ "…").length = (m - 1).toNat + 1 := by
        have h0 : (0 : Int) ≤ m - 1 := by omega
        simp only [pySliceTo, if_pos h0, String.length_append]
        have hmk : (String.mk (s.toList.take (m - 1).toNat)).length =
            min (m - 1).toNat s.length := by
          show (s.toList.take (m - 1).toNat).length = min (m - 1).toNat s.length
          rw [List.length_take]
          rfl
        rw [hmk]
        have hmin : min (m - 1).toNat s.length = (m - 1).toNat := by
          omega
        rw [hmin]
        rfl
      rw [hlen]
      omega
    · rw [if_neg hlt]
  · intro hle
    rw [if_neg (by omega)]
  · intro hlt
    rw [if_pos hlt]
    refine ⟨rfl, ?_⟩
    have h0 : (0 : Int) ≤ m - 1 := by omega
    simp only [pySliceTo, if_pos h0, String.length_append]
    have hmk : (String.mk (s.toList.take (m - 1).toNat)).length =
        min (m - 1).toNat s.length := by
      show (s.toList.take (m - 1).toNat).length = min (m - 1).toNat s.length
      rw [List.length_take]
      rfl
    rw [hmk]
    have hmin : min (m - 1).toNat s.length = (m - 1).toNat := by
      omega
    rw [hmin]
    have : ("…" : String).length = 1 := rfl
    rw [this]
    omega

/-- Witness for C4: the spec example — maxGraphemes 10 on
"too many graphemes" truncates to "too many …". -/
theorem c4_truncation_witness :
    ∃ oes2,
      truncateProps
        [("string", PyVal.vDict [("type", PyVal.vStr "string"),
                                 ("maxGraphemes", PyVal.vInt 10)])]
        (.vDict [("string", .vStr "too many graphemes")]) = .ok (.vDict oes2) ∧
      dictFind? oes2 "string" = some (.vStr "too many …") := by
  obtain ⟨oes2, h1, _, h3⟩ := c4_truncation
    [("string", PyVal.vDict [("type", PyVal.vStr "string"),
                             ("maxGraphemes", PyVal.vInt 10)])]
    [("string", .vStr "too many graphemes")]
    (by simp)
    (by
      intro nc hnc
      rcases List.mem_singleton.mp hnc with rfl
      exact ⟨_, rfl, fun _ => ⟨⟨10, rfl⟩, Or.inr ⟨"too many graphemes", rfl⟩⟩⟩)
  obtain ⟨s2, hfind, hs2, _⟩ := h3 _ (List.mem_singleton.mpr rfl) _ 10
    "too many graphemes" rfl rfl (by norm_num) rfl
  refine ⟨oes2, h1, ?_⟩
  rw [hfind, hs2]
  rfl

/-! ## C7 -/

/-- Specification-side reading of the claim: the (fully-qualified id,
definition) pairs derivable from one lexicon document. -/
def docPairs (doc : PyVal) : List (String × PyVal) :=
  match doc with
  | .vDict es =>
    (match (dictFind? es "defs").getD (.vDict []) with
     | .vDict ds =>
       ds.map (fun nd =>
         (fqid (pyStrOf ((dictFind? es "id").getD .vNone)) nd.1, nd.2))
     | _ => [])
  | _ => []

/-- All derivable pairs of a document sequence, in order. -/
def derivedPairs : List PyVal → List (String × PyVal)
  | [] => []
  | d :: rest => docPairs d ++ derivedPairs rest

/-- Folds last-wins bindings for `k` over ordered pairs, starting from a
prior binding. -/
def updAssoc (o : Option PyVal) (ps : List (String × PyVal)) (k : String) :
    Option PyVal :=
  match ps with
  | [] => o
  | p :: rest => updAssoc (if p.1 = k then some p.2 else o) rest k

/-- Rightmost binding for `k` among ordered pairs. -/
def lastBinding (ps : List (String × PyVal)) (k : String) : Option PyVal :=
  updAssoc Option.none ps k

theorem updAssoc_append (ps1 : List (String × PyVal)) :
    ∀ (o : Option PyVal) (ps2 : List (String × PyVal)) (k : String),
      updAssoc o (ps1 ++ ps2) k = updAssoc (updAssoc o ps1 k) ps2 k := by
  induction ps1 with
  | nil => intro o ps2 k; rfl
  | cons p rest ih =>
    intro o ps2 k
    simp only [List.cons_append, updAssoc]
    exact ih _ ps2 k

theorem updAssoc_isSome (ps : List (String × PyVal)) :
    ∀ (o : Option PyVal) (k : String),
      (updAssoc o ps k).isSome = true ↔
        o.isSome = true ∨ k ∈ ps.map Prod.fst := by
  induction ps with
  | nil =>
    intro o k
    simp [updAssoc]
  | cons p rest ih =>
    intro o k
    simp only [updAssoc, List.map_cons, List.mem_cons]
    rw [ih]
    by_cases hp : p.1 = k
    · simp [hp]
    · have hk : ¬ k = p.1 := fun h => hp h.symm
      simp [hp, hk]

/-- Well-formedness of one definition, as required by the claim: a dict
with a recognized `type`. -/
def defnWF (defn : PyVal) : Prop :=
  ∃ des ts, defn = PyVal.vDict des ∧ dictFind? des "type" = some (.vStr ts) ∧
    (LEXICON_TYPES ++ PARAMETER_TYPES).contains ts = true

/-- Well-formedness of one document, as required by the claim: a dict with
a non-empty string id and a dict of well-formed definitions. -/
def docWF (doc : PyVal) : Prop :=
  ∃ es s ds, doc = PyVal.vDict es ∧
    dictFind? es "id" = some (.vStr s) ∧ s ≠ "" ∧
    (dictFind? es "defs").getD (.vDict []) = PyVal.vDict ds ∧
    ∀ nd ∈ ds, defnWF nd.2

theorem loadDefs_spec :
    ∀ (entries : List (String × PyVal)) (nsid : String) (defs : Registry),
      (∀ nd ∈ entries, defnWF nd.2) →
      ∃ r, loadDefs nsid defs entries = .ok r ∧
        ∀ k, dictFind? r k =
          updAssoc (dictFind? defs k)
            (entries.map (fun nd => (fqid nsid nd.1, nd.2))) k := by
  intro entries
  induction entries with
  | nil =>
    intro nsid defs _
    exact ⟨defs, rfl, fun k => rfl⟩
  | cons nd rest ih =>
    intro nsid defs hwf
    obtain ⟨name, defn⟩ := nd
    obtain ⟨des, ts, hdefn, hfind, hcont⟩ := hwf (name, defn) (List.mem_cons_self _ _)
    simp only [] at hdefn
    subst hdefn
    obtain ⟨r, hr, hkeys⟩ := ih nsid
      (dictSet (dictSet defs (fqid nsid name) (.vDict des)) (fqid nsid name) (.vDict des))
      (fun nd hnd => hwf nd (List.mem_cons_of_mem _ hnd))
    refine ⟨r, ?_, ?_⟩
    · simp only [loadDefs, pyGetItem, hfind, hcont]
      simpa using hr
    · intro k
      rw [hkeys k]
      simp only [List.map_cons, updAssoc]
      congr 1
      rw [dictFind?_dictSet, dictFind?_dictSet]
      by_cases hk : fqid nsid name = k <;> simp [hk]

theorem loadLexicons_spec :
    ∀ (docs : List PyVal) (i : Nat) (defs : Registry),
      (∀ d ∈ docs, docWF d) →
      ∃ r, loadLexicons i defs docs = .ok r ∧
        ∀ k, dictFind? r k = updAssoc (dictFind? defs k) (derivedPairs docs) k := by
  intro docs
  induction docs with
  | nil =>
    intro i defs _
    exact ⟨defs, rfl, fun k => rfl⟩
  | cons doc rest ih =>
    intro i defs hwf
    obtain ⟨es, s, ds, hdoc, hid, hs, hds, hdswf⟩ := hwf doc (List.mem_cons_self _ _)
    subst hdoc
    have hstr : pyStrOf ((dictFind? es "id").getD .vNone) = s := by
      rw [hid]
      rfl
    obtain ⟨r2, hr2, hkeys2⟩ := loadDefs_spec ds s defs hdswf
    obtain ⟨r, hr, hkeys⟩ := ih (i + 1) r2
      (fun d hd => hwf d (List.mem_cons_of_mem _ hd))
    refine ⟨r, ?_, ?_⟩
    · have htr : pyTruthy (PyVal.vStr s) = true := by
        simp [pyTruthy, hs]
      simp only [loadLexicons, pyGetD, hid, Option.getD_some, htr, Bool.not_true,
        Bool.false_eq_true, if_false, hds, pyItems]
      rw [show pyStrOf (PyVal.vStr s) = s from rfl, hr2]
      exact hr
    · intro k
      rw [hkeys k]
      simp only [derivedPairs, updAssoc_append]
      congr 1
      rw [hkeys2 k]
      simp only [docPairs, hds, hid, Option.getD_some]
      rfl

/-- C7: for well-formed documents (non-empty string ids, recognized
definition types), construction succeeds — never a duplicate error — and
produces a registry whose binding for every key is the LAST derivable
(fully-qualified id, definition) pair with that id, later documents
silently overwriting earlier ones; hence its key set is exactly the set of
derivable fully-qualified ids. -/
theorem c7_registry_keys :
    ∀ (bundled docs : List PyVal),
      (∀ d ∈ docs, docWF d) →
      ∃ r, baseInit bundled (some docs) = .ok r ∧
        (∀ k, dictFind? r k = lastBinding (derivedPairs docs) k) ∧
        (∀ k, dictContains r k = true ↔ k ∈ (derivedPairs docs).map Prod.fst) := by
  intro bundled docs hwf
  obtain ⟨r, hr, hkeys⟩ := loadLexicons_spec docs 0 [] hwf
  refine ⟨r, by simpa [baseInit] using hr, fun k => hkeys k, fun k => ?_⟩
  rw [dictContains, hkeys k]
  have := updAssoc_isSome (derivedPairs docs) Option.none k
  simpa [lastBinding] using this

def dupDocA : PyVal := .vDict [
  ("id", .vStr "io.ex.dup"),
  ("defs", .vDict [("main", .vDict [("type", .vStr "query")])])]

def dupDocB : PyVal := .vDict [
  ("id", .vStr "io.ex.dup"),
  ("defs", .vDict [("main", .vDict [("type", .vStr "procedure")])])]

/-- Witness for C7: two documents under the same id load without error and
the later one wins. -/
theorem c7_registry_keys_witness :
    ∃ r, baseInit [] (some [dupDocA, dupDocB]) = .ok r ∧
      dictFind? r "io.ex.dup" =
        lastBinding (derivedPairs [dupDocA, dupDocB]) "io.ex.dup" := by
  obtain ⟨r, h1, h2, _⟩ := c7_registry_keys [] [dupDocA, dupDocB] (by
    intro d hd
    simp only [List.mem_cons, List.not_mem_nil, or_false] at hd
    rcases hd with rfl | rfl
    · refine ⟨_, "io.ex.dup", _, rfl, rfl, by decide, rfl, ?_⟩
      intro nd hnd
      rcases List.mem_singleton.mp hnd with rfl
      exact ⟨_, "query", rfl, rfl, rfl⟩
    · refine ⟨_, "io.ex.dup", _, rfl, rfl, by decide, rfl, ?_⟩
      intro nd hnd
      rcases List.mem_singleton.mp hnd with rfl
      exact ⟨_, "procedure", rfl, rfl, rfl⟩)
  exact ⟨r, h1, h2 "io.ex.dup"⟩

/-! ## C6 amended -/

theorem dictFind?_append_left_none (a : List (String × PyVal)) :
    ∀ (b : List (String × PyVal)) (n : String),
      dictFind? a n = Option.none → dictFind? (a ++ b) n = dictFind? b n := by
  induction a with
  | nil => intro b n _; rfl
  | cons p rest ih =>
    intro b n h
    simp only [dictFind?] at h
    by_cases hp : p.1 = n
    · rw [if_pos hp] at h; cases h
    · rw [if_neg hp] at h
      obtain ⟨k2, w⟩ := p
      simp only [List.cons_append, dictFind?]
      rw [if_neg hp]
      exact ih b n h

theorem dictSet_not_found (a : List (String × PyVal)) :
    ∀ (n : String) (v : PyVal),
      dictFind? a n = Option.none → dictSet a n v = a ++ [(n, v)] := by
  induction a with
  | nil => intro n v _; rfl
  | cons p rest ih =>
    intro n v h
    obtain ⟨k2, w⟩ := p
    simp only [dictFind?] at h
    by_cases hp : k2 = n
    · rw [if_pos hp] at h; cases h
    · rw [if_neg hp] at h
      simp only [dictSet, if_neg hp, List.cons_append]
      rw [ih n v h]

theorem dictSet_append_last (a : List (String × PyVal)) :
    ∀ (n : String) (w v : PyVal),
      dictFind? a n = Option.none →
      dictSet (a ++ [(n, w)]) n v = a ++ [(n, v)] := by
  induction a with
  | nil => intro n w v _; simp [dictSet]
  | cons p rest ih =>
    intro n w v h
    obtain ⟨k2, u⟩ := p
    simp only [dictFind?] at h
    by_cases hp : k2 = n
    · rw [if_pos hp] at h; cases h
    · rw [if_neg hp] at h
      simp only [List.cons_append, dictSet, if_neg hp, List.append_eq]
      rw [ih n w v h]

/-- The type of a declared parameter after the `or`-defaulting of
decode_params line 284 matches the shape of the supplied value; array
values are non-empty lists of strings. -/
def paramMatches (sp : List (String × PyVal)) (name : String) (v : PyVal) : Prop :=
  ∃ ces, (dictFind? sp name).getD (.vDict []) = PyVal.vDict ces ∧
    (((if pyTruthy ((dictFind? ces "type").getD .vNone)
        then (dictFind? ces "type").getD .vNone
        else PyVal.vStr "string") = PyVal.vStr "boolean" ∧ ∃ b, v = .vBool b) ∨
     ((if pyTruthy ((dictFind? ces "type").getD .vNone)
        then (dictFind? ces "type").getD .vNone
        else PyVal.vStr "string") = PyVal.vStr "number" ∧ ∃ d, v = .vFloat d) ∨
     ((if pyTruthy ((dictFind? ces "type").getD .vNone)
        then (dictFind? ces "type").getD .vNone
        else PyVal.vStr "string") = PyVal.vStr "integer" ∧ ∃ n, v = .vInt n) ∨
     ((if pyTruthy ((dictFind? ces "type").getD .vNone)
        then (dictFind? ces "type").getD .vNone
        else PyVal.vStr "string") = PyVal.vStr "string" ∧ ∃ s, v = .vStr s) ∨
     ((if pyTruthy ((dictFind? ces "type").getD .vNone)
        then (dictFind? ces "type").getD .vNone
        else PyVal.vStr "string") = PyVal.vStr "array" ∧
       ∃ ss, ss ≠ [] ∧ v = .vList (ss.map PyVal.vStr)))

theorem pyStrOf_vFloat (d : PyDec) : pyStrOf (PyVal.vFloat d) = floatRender d := rfl

theorem pyStrOf_vInt (n : Int) : pyStrOf (PyVal.vInt n) = intRender n := rfl

theorem pyStrOf_vStr (s : String) : pyStrOf (PyVal.vStr s) = s := rfl

theorem decodeOne_bool_true (sp decoded : List (String × PyVal)) (name : String)
    (ces : List (String × PyVal))
    (hces : (dictFind? sp name).getD (.vDict []) = PyVal.vDict ces)
    (hty : (if pyTruthy ((dictFind? ces "type").getD .vNone)
        then (dictFind? ces "type").getD .vNone
        else PyVal.vStr "string") = PyVal.vStr "boolean") :
    decodeOne sp decoded (name, "true") = .ok (dictSet decoded name (.vBool true)) := by
  simp only [decodeOne, pyGetD, hces]
  rw [hty]
  rfl

theorem decodeOne_bool_false (sp decoded : List (String × PyVal)) (name : String)
    (ces : List (String × PyVal))
    (hces : (dictFind? sp name).getD (.vDict []) = PyVal.vDict ces)
    (hty : (if pyTruthy ((dictFind? ces "type").getD .vNone)
        then (dictFind? ces "type").getD .vNone
        else PyVal.vStr "string") = PyVal.vStr "boolean") :
    decodeOne sp decoded (name, "false") = .ok (dictSet decoded name (.vBool false)) := by
  simp only [decodeOne, pyGetD, hces]
  rw [hty]
  rfl

theorem decodeOne_number (sp decoded : List (String × PyVal)) (name : String)
    (ces : List (String × PyVal)) (d : PyDec)
    (hces : (dictFind? sp name).getD (.vDict []) = PyVal.vDict ces)
    (hty : (if pyTruthy ((dictFind? ces "type").getD .vNone)
        then (dictFind? ces "type").getD .vNone
        else PyVal.vStr "string") = PyVal.vStr "number") :
    decodeOne sp decoded (name, floatRender d) = .ok (dictSet decoded name (.vFloat d)) := by
  simp only [decodeOne, pyGetD, hces]
  rw [hty]
  simp [PARAMETER_TYPES, parseFloat_floatRender]

theorem decodeOne_integer (sp decoded : List (String × PyVal)) (name : String)
    (ces : List (String × PyVal)) (n : Int)
    (hces : (dictFind? sp name).getD (.vDict []) = PyVal.vDict ces)
    (hty : (if pyTruthy ((dictFind? ces "type").getD .vNone)
        then (dictFind? ces "type").getD .vNone
        else PyVal.vStr "string") = PyVal.vStr "integer") :
    decodeOne sp decoded (name, intRender n) = .ok (dictSet decoded name (.vInt n)) := by
  simp only [decodeOne, pyGetD, hces]
  rw [hty]
  simp [PARAMETER_TYPES, parseIntPy_intRender]

theorem decodeOne_string (sp decoded : List (String × PyVal)) (name s : String)
    (ces : List (String × PyVal))
    (hces : (dictFind? sp name).getD (.vDict []) = PyVal.vDict ces)
    (hty : (if pyTruthy ((dictFind? ces "type").getD .vNone)
        then (dictFind? ces "type").getD .vNone
        else PyVal.vStr "string") = PyVal.vStr "string") :
    decodeOne sp decoded (name, s) = .ok (dictSet decoded name (.vStr s)) := by
  simp only [decodeOne, pyGetD, hces]
  rw [hty]
  rfl

theorem decodeOne_array (sp decoded : List (String × PyVal)) (name s : String)
    (ces : List (String × PyVal))
    (hces : (dictFind? sp name).getD (.vDict []) = PyVal.vDict ces)
    (hty : (if pyTruthy ((dictFind? ces "type").getD .vNone)
        then (dictFind? ces "type").getD .vNone
        else PyVal.vStr "string") = PyVal.vStr "array") :
    decodeOne sp decoded (name, s) = setdefaultAppend decoded name s := by
  simp only [decodeOne, pyGetD, hces]
  rw [hty]
  rfl

theorem setdefaultAppend_existing (decoded : List (String × PyVal)) (name : String)
    (ys : List PyVal) (s : String)
    (h : dictFind? decoded name = some (.vList ys)) :
    setdefaultAppend decoded name s =
      .ok (dictSet decoded name (.vList (ys ++ [.vStr s]))) := by
  simp [setdefaultAppend, h]

/-- Decoding the repeated pairs of one array parameter appends the items in
order to the accumulated list. -/
theorem decodeLoop_array (sp : List (String × PyVal)) (name : String)
    (ces : List (String × PyVal))
    (hces : (dictFind? sp name).getD (.vDict []) = PyVal.vDict ces)
    (hty : (if pyTruthy ((dictFind? ces "type").getD .vNone)
        then (dictFind? ces "type").getD .vNone
        else PyVal.vStr "string") = PyVal.vStr "array") :
    ∀ (ss : List String) (acc : List (String × PyVal)) (ys : List PyVal),
      dictFind? acc name = Option.none →
      decodeLoop sp (acc ++ [(name, .vList ys)]) (ss.map (fun s => (name, s))) =
        .ok (acc ++ [(name, .vList (ys ++ ss.map PyVal.vStr))]) := by
  intro ss
  induction ss with
  | nil =>
    intro acc ys _
    simp [decodeLoop]
  | cons s ss ih =>
    intro acc ys hacc
    have hfind : dictFind? (acc ++ [(name, PyVal.vList ys)]) name =
        some (.vList ys) := by
      rw [dictFind?_append_left_none acc _ name hacc]
      simp [dictFind?]
    simp only [List.map_cons, decodeLoop,
      decodeOne_array sp (acc ++ [(name, PyVal.vList ys)]) name s ces hces hty,
      setdefaultAppend_existing (acc ++ [(name, PyVal.vList ys)]) name ys s hfind,
      dictSet_append_last acc name (PyVal.vList ys)
        (PyVal.vList (ys ++ [PyVal.vStr s])) hacc]
    rw [ih acc (ys ++ [PyVal.vStr s]) hacc]
    simp

theorem decodeLoop_append (sp : List (String × PyVal)) :
    ∀ (l1 l2 : List (String × String)) (acc : List (String × PyVal)),
      decodeLoop sp acc (l1 ++ l2) =
        match decodeLoop sp acc l1 with
        | .error e => .error e
        | .ok acc2 => decodeLoop sp acc2 l2 := by
  intro l1
  induction l1 with
  | nil => intro l2 acc; rfl
  | cons nv rest ih =>
    intro l2 acc
    simp only [List.cons_append, decodeLoop]
    cases decodeOne sp acc nv with
    | error e => rfl
    | ok acc2 => exact ih l2 acc2

theorem encode_params_cons (nv : String × PyVal) (rest : List (String × PyVal)) :
    encode_params (nv :: rest) = encodePair nv ++ encode_params rest := by
  simp [encode_params]

/-- The decoding loop inverts the encoding, group by group. -/
theorem decodeLoop_encode :
    ∀ (params acc sp : List (String × PyVal)),
      (∀ nv ∈ params, paramMatches sp nv.1 nv.2) →
      (params.map Prod.fst).Nodup →
      (∀ nv ∈ params, dictFind? acc nv.1 = Option.none) →
      decodeLoop sp acc (encode_params params) = .ok (acc ++ params) := by
  intro params
  induction params with
  | nil =>
    intro acc sp _ _ _
    simp [encode_params, decodeLoop]
  | cons nv rest ih =>
    intro acc sp hm hnd hacc
    obtain ⟨n, v⟩ := nv
    have hnd2 : (n :: rest.map Prod.fst).Nodup := by simpa using hnd
    have hnotin : n ∉ rest.map Prod.fst := (List.nodup_cons.mp hnd2).1
    have haccn : dictFind? acc n = Option.none :=
      hacc (n, v) (List.mem_cons_self _ _)
    obtain ⟨ces, hces, hdisj⟩ := hm (n, v) (List.mem_cons_self _ _)
    simp only [] at hces hdisj
    have hgroup : decodeLoop sp acc (encodePair (n, v)) = .ok (acc ++ [(n, v)]) := by
      rcases hdisj with ⟨hty, b, rfl⟩ | ⟨hty, d, rfl⟩ | ⟨hty, k, rfl⟩ |
        ⟨hty, s, rfl⟩ | ⟨hty, ss, hne, rfl⟩
      · cases b with
        | true =>
          simp only [encodePair, decodeLoop,
            decodeOne_bool_true sp acc n ces hces hty,
            dictSet_not_found acc n _ haccn]
        | false =>
          simp only [encodePair, decodeLoop,
            decodeOne_bool_false sp acc n ces hces hty,
            dictSet_not_found acc n _ haccn]
      · simp only [encodePair, pyStrOf_vFloat, decodeLoop,
          decodeOne_number sp acc n ces d hces hty,
          dictSet_not_found acc n _ haccn]
      · simp only [encodePair, pyStrOf_vInt, decodeLoop,
          decodeOne_integer sp acc n ces k hces hty,
          dictSet_not_found acc n _ haccn]
      · simp only [encodePair, pyStrOf_vStr, decodeLoop,
          decodeOne_string sp acc n s ces hces hty,
          dictSet_not_found acc n _ haccn]
      · obtain ⟨s1, ss2, rfl⟩ : ∃ s1 ss2, ss = s1 :: ss2 := by
          cases ss with
          | nil => exact absurd rfl hne
          | cons a b => exact ⟨a, b, rfl⟩
        have hpair : encodePair (n, PyVal.vList ((s1 :: ss2).map PyVal.vStr)) =
            (s1 :: ss2).map (fun s => (n, s)) := by
          simp [encodePair, pyStrOf]
        rw [hpair]
        simp only [List.map_cons, decodeLoop,
          decodeOne_array sp acc n s1 ces hces hty]
        have hnew : setdefaultAppend acc n s1 =
            .ok (acc ++ [(n, .vList [.vStr s1])]) := by
          simp [setdefaultAppend, haccn]
        rw [hnew]
        simp only []
        rw [decodeLoop_array sp n ces hces hty ss2 acc [PyVal.vStr s1] haccn]
        simp
    rw [encode_params_cons, decodeLoop_append, hgroup]
    simp only []
    have hrest := ih (acc ++ [(n, v)]) sp
      (fun nv hnv => hm nv (List.mem_cons_of_mem _ hnv))
      (List.nodup_cons.mp hnd2).2
      (by
        intro nv hnv
        have hne2 : nv.1 ≠ n := by
          intro h
          exact hnotin (h ▸ List.mem_map_of_mem Prod.fst hnv)
        rw [dictFind?_append_left_none acc _ nv.1 (hacc nv (List.mem_cons_of_mem _ hnv))]
        have hne3 : ¬ n = nv.1 := fun h => hne2 h.symm
        simp [dictFind?, hne3])
    rw [hrest]
    simp

/-- C6 as amended: round-tripping through encode_params and decode_params
restores a parameter mapping with distinct names whose values match their
declared types, with arrays restricted to NON-EMPTY lists of STRING items:
booleans go through the literal strings true/false, numbers and integers
through their printed decimal forms, arrays through repeated name/value
pairs in preserved order.  (The counterexample shows the unrestricted claim
fails: an empty array vanishes from the encoding; and since decode_params
never converts array items, non-string items would come back as strings.) -/
theorem c6_roundtrip_amended :
    ∀ (defs : Registry) (nsid : String) (lexicon ps props : PyVal)
      (sp params : List (String × PyVal)),
      getDef defs nsid = .ok lexicon →
      pyGetD lexicon "parameters" (.vDict []) = .ok ps →
      pyGetD ps "properties" (.vDict []) = .ok props →
      pyItems props = .ok sp →
      (∀ nv ∈ params, paramMatches sp nv.1 nv.2) →
      (params.map Prod.fst).Nodup →
      decode_params defs nsid (encode_params params) = .ok params := by
  intro defs nsid lexicon ps props sp params h1 h2 h3 h4 hm hnd
  simp only [decode_params, h1, h2, h3, h4]
  have := decodeLoop_encode params [] sp hm hnd (fun nv _ => rfl)
  simpa using this

/-- A query with one parameter of each type. -/
def multiDefn : PyVal := .vDict [
  ("type", .vStr "query"),
  ("parameters", .vDict [
    ("type", .vStr "params"),
    ("properties", .vDict [
      ("b", .vDict [("type", .vStr "boolean")]),
      ("c", .vDict [("type", .vStr "integer")]),
      ("d", .vDict [("type", .vStr "number")]),
      ("e", .vDict [("type", .vStr "string")]),
      ("a", .vDict [("type", .vStr "array")])])])]

def multiDefs : Registry := [("io.example.multi", multiDefn)]

/-- Witness for C6: a mapping with a boolean, an integer, a number, a
string and a non-empty string array round-trips through the codec. -/
theorem c6_roundtrip_witness :
    decode_params multiDefs "io.example.multi"
      (encode_params [("b", .vBool true), ("c", .vInt (-7)),
        ("d", .vFloat ⟨false, 3, [5]⟩), ("e", .vStr "x"),
        ("a", .vList [.vStr "u", .vStr "w"])]) =
      .ok [("b", .vBool true), ("c", .vInt (-7)),
        ("d", .vFloat ⟨false, 3, [5]⟩), ("e", .vStr "x"),
        ("a", .vList [.vStr "u", .vStr "w"])] := by
  refine c6_roundtrip_amended multiDefs "io.example.multi" multiDefn _ _ _ _
    rfl rfl rfl rfl ?_ (by simp)
  intro nv hnv
  simp only [List.mem_cons, List.not_mem_nil, or_false] at hnv
  rcases hnv with rfl | rfl | rfl | rfl | rfl
  · exact ⟨_, rfl, Or.inl ⟨rfl, true, rfl⟩⟩
  · exact ⟨_, rfl, Or.inr (Or.inr (Or.inl ⟨rfl, -7, rfl⟩))⟩
  · exact ⟨_, rfl, Or.inr (Or.inl ⟨rfl, ⟨false, 3, [5]⟩, rfl⟩)⟩
  · exact ⟨_, rfl, Or.inr (Or.inr (Or.inr (Or.inl ⟨rfl, "x", rfl⟩)))⟩
  · exact ⟨_, rfl, Or.inr (Or.inr (Or.inr (Or.inr
      ⟨rfl, ["u", "w"], by simp, rfl⟩)))⟩

end LexRpc
